import Mathlib

/-!
Verification of the rapidd-build RLS-to-JavaScript/Prisma compiler
against its natural-language specification.

The JavaScript sources are shallowly embedded below.  Strings are modelled
as `List Char` (wrapped into `String` at the public boundary), and every
JavaScript regular expression used by the converters is mirrored by a
dedicated, executable matching function whose doc comment quotes the
original pattern.  Recursive string scanners take an explicit fuel
argument (always instantiated with more than the length of the input),
so that all definitions compute by `rfl`/`decide`.
-/

set_option maxRecDepth 20000

namespace Rapidd

/-- Whitespace class of JavaScript regular expressions (the `\s` class),
restricted to the ASCII range actually appearing in predicate texts. -/
def isWsJS (c : Char) : Bool :=
  c = ' ' || c = '\t' || c = '\n' || c = '\r' || c = '\x0b' || c = '\x0c'

/-- The JavaScript `\w` class: `[a-zA-Z0-9_]`. -/
def isWordChar (c : Char) : Bool :=
  ('a' ≤ c && c ≤ 'z') || ('A' ≤ c && c ≤ 'Z') || ('0' ≤ c && c ≤ '9') || c = '_'

/-- The class `[a-zA-Z0-9_]` used by `isAlphanumeric` in sqlToJsConverter.js
and by the sanitizing replace in `mapSettingToUserProperty`. -/
def isAlphanumeric (c : Char) : Bool := isWordChar c

def isDigitCh (c : Char) : Bool := '0' ≤ c && c ≤ '9'

/-- ASCII upper-casing of a character (JavaScript `toUpperCase`). -/
def upCh (c : Char) : Char :=
  if 'a' ≤ c && c ≤ 'z' then Char.ofNat (c.toNat - 32) else c

/-- ASCII lower-casing of a character (JavaScript `toLowerCase`). -/
def lowCh (c : Char) : Char :=
  if 'A' ≤ c && c ≤ 'Z' then Char.ofNat (c.toNat + 32) else c

def upStr (s : List Char) : List Char := s.map upCh
def lowStr (s : List Char) : List Char := s.map lowCh

/-- Case-insensitive character comparison used when mirroring `/.../i`. -/
def eqCI (a b : Char) : Bool := upCh a = upCh b

def trimLeftWs : List Char → List Char
  | [] => []
  | c :: cs => if isWsJS c then trimLeftWs cs else c :: cs

/-- JavaScript `String.prototype.trim`. -/
def trimWs (s : List Char) : List Char :=
  ((trimLeftWs ((trimLeftWs s.reverse)).reverse))

/-- Strip a trailing whitespace run only. -/
def trimRightWs (s : List Char) : List Char := (trimLeftWs s.reverse).reverse

/-- Does `s` start with `pat` (case-insensitively when `ci` is true)? -/
def headIs (ci : Bool) : List Char → List Char → Bool
  | [], _ => true
  | _ :: _, [] => false
  | p :: ps, c :: cs => (if ci then eqCI p c else p = c) && headIs ci ps cs

/-- JavaScript `String.prototype.includes` (case-sensitive substring test). -/
def hasSub (pat : List Char) : List Char → Bool
  | [] => pat.isEmpty
  | c :: cs => headIs false pat (c :: cs) || hasSub pat cs

/-- Case-insensitive substring test (mirrors searching with an `/.../i` regex
whose pattern is a plain literal). -/
def hasSubCI (pat : List Char) : List Char → Bool
  | [] => pat.isEmpty
  | c :: cs => headIs true pat (c :: cs) || hasSub' pat cs
where hasSub' (pat : List Char) : List Char → Bool
  | [] => pat.isEmpty
  | c :: cs => headIs true pat (c :: cs) || hasSub' pat cs

/-- First match of a position-wise matcher, scanned left to right
(the leftmost-match rule of JavaScript regex search).  The matcher
receives the suffix starting at the candidate position. -/
def scanStarts {α : Type} (f : List Char → Option α) : List Char → Option α
  | [] => f []
  | c :: cs =>
    match f (c :: cs) with
    | some r => some r
    | none => scanStarts f cs

/-- Like `scanStarts` but also tells how many characters precede the match. -/
def scanStartsAt {α : Type} (f : List Char → Option α) : List Char → Option (Nat × α)
  | [] => (f []).map (fun r => (0, r))
  | c :: cs =>
    match f (c :: cs) with
    | some r => some (0, r)
    | none => (scanStartsAt f cs).map (fun p => (p.1 + 1, p.2))

/-- All matches of a position-wise matcher, mirroring a global-`exec` loop:
after a match of length `n` (`n ≥ 1`) the scan resumes after the match.
The matcher returns the consumed length together with its captures. -/
def scanAll {α : Type} (f : List Char → Option (Nat × α)) : Nat → List Char → List α
  | 0, _ => []
  | _ + 1, [] => match f [] with | some (_, r) => [r] | none => []
  | fuel + 1, c :: cs =>
    match f (c :: cs) with
    | some (n, r) => r :: scanAll f fuel ((c :: cs).drop (max n 1))
    | none => scanAll f fuel cs

/-- JavaScript `String.prototype.split(sep)` for a one-character separator:
empty pieces are kept and there is always at least one piece. -/
def splitOnChar (sep : Char) : List Char → List (List Char)
  | [] => [[]]
  | c :: cs =>
    if c = sep then [] :: splitOnChar sep cs
    else match splitOnChar sep cs with
      | [] => [[c]]
      | p :: ps => (c :: p) :: ps

def splitOnComma : List Char → List (List Char) := splitOnChar ','

def joinWith (sep : List Char) : List (List Char) → List Char
  | [] => []
  | [p] => p
  | p :: ps => p ++ sep ++ joinWith sep ps

/-- Replace every (non-overlapping, leftmost-first) occurrence of `pat` by
`rep`: JavaScript `replace(/pat/g, rep)` for a literal pattern. -/
def replaceSub (pat rep : List Char) : Nat → List Char → List Char
  | 0, s => s
  | _ + 1, [] => []
  | fuel + 1, c :: cs =>
    if pat ≠ [] && headIs false pat (c :: cs) then
      rep ++ replaceSub pat rep fuel ((c :: cs).drop pat.length)
    else
      c :: replaceSub pat rep fuel cs

/-- Greedy whitespace run length at the head of `s` (`\s*` / `\s+`). -/
def wsRun : List Char → Nat
  | [] => 0
  | c :: cs => if isWsJS c then wsRun cs + 1 else 0

/-- Greedy word-character run length at the head of `s` (`\w*` / `\w+`). -/
def wordRun : List Char → Nat
  | [] => 0
  | c :: cs => if isWordChar c then wordRun cs + 1 else 0

/-- Greedy run of characters satisfying `p`. -/
def runOf (p : Char → Bool) : List Char → Nat
  | [] => 0
  | c :: cs => if p c then runOf p cs + 1 else 0

/-- JavaScript `startsWith` on `String`s, via the character list. -/
def strStarts (pfx s : String) : Bool := headIs false pfx.data s.data

/-- JavaScript `endsWith` on `String`s, via the character list. -/
def strEnds (suf s : String) : Bool :=
  decide (suf.data.length ≤ s.data.length) &&
    decide (s.data.drop (s.data.length - suf.data.length) = suf.data)

/-- `Array.prototype.join(sep)` on `String`s, via the character lists. -/
def strJoin (sep : String) (l : List String) : String :=
  ⟨joinWith sep.data (l.map (fun x => x.data))⟩

/-- Drop the first `n` characters of a string. -/
def strDrop (s : String) (n : Nat) : String := ⟨s.data.drop n⟩

/-- Drop the last `n` characters of a string. -/
def strDropRight (s : String) (n : Nat) : String :=
  ⟨s.data.take (s.data.length - n)⟩

end Rapidd

namespace Rapidd.RelGen

/-!  src/src/generators/relationshipsGenerator.js  -/

/-- Field metadata as consumed by the generators (a slice of the parsed
Prisma model: only the members the embedded functions inspect). -/
structure FieldInfo where
  isRelation : Bool := false
  isId : Bool := false
  kind : String := ""
  relationName : String := ""
  relationFromFields : List String := []
deriving Repr, DecidableEq

/-- One entry of `modelInfo.relations`. -/
structure RelationDecl where
  name : String
  type : String
  isArray : Bool := false
  relationName : String := ""
  relationFromFields : List String := []
deriving Repr, DecidableEq

structure ModelInfo where
  fields : List (String × FieldInfo) := []
  relations : List RelationDecl := []
  compositeKey : List String := []
deriving Repr, DecidableEq

/-- JavaScript-object lookup on an insertion-ordered association list. -/
def lookupStr {α : Type} (k : String) : List (String × α) → Option α
  | [] => none
  | (k', v) :: rest => if k' = k then some v else lookupStr k rest

/-- JavaScript `toLowerCase` on strings. -/
def jsLower (s : String) : String := ⟨Rapidd.lowStr s.data⟩

/-- `reorderFieldsForModel` (relationshipsGenerator.js, lines 144-157):
move `<currentModelName.toLowerCase()>_id` to the front of the composite
key when it occurs at a positive index; otherwise return the list as-is. -/
def reorderFieldsForModel (fields : List String) (currentModelName : String) : List String :=
  let currentModelField := jsLower currentModelName ++ "_id"
  match fields.indexOf? currentModelField with
  | some i =>
    if 0 < i then
      currentModelField :: fields.erase currentModelField
    else
      fields
  | none => fields

/-- `getCompositeKeyFromModel` (relationshipsGenerator.js, lines 116-136). -/
def getCompositeKeyFromModel (modelInfo : ModelInfo) : Option (List String) :=
  if 1 < modelInfo.compositeKey.length then
    some modelInfo.compositeKey
  else
    let compositeFields :=
      (modelInfo.fields.filter (fun f => f.2.isId && !f.2.isRelation)).map (·.1)
    if 1 < compositeFields.length then some compositeFields else none

/-- `findForeignKeyField` (relationshipsGenerator.js, lines 82-109). -/
def findForeignKeyField (relation : RelationDecl) (relatedModel : ModelInfo) :
    Option String :=
  if relation.isArray then
    match relatedModel.fields.find? (fun f =>
        f.2.kind = "object" && f.2.relationName = relation.relationName &&
        !f.2.relationFromFields.isEmpty) with
    | some f => f.2.relationFromFields.head?
    | none => none
  else
    if !relation.relationFromFields.isEmpty then
      relation.relationFromFields.head?
    else
      none

/-- One output entry of relationships.json. -/
structure RelationInfo where
  object : String
  field : String := ""
  fields : Option (List String) := none
deriving Repr, DecidableEq

/-- The relation loop of `generateRelationships` (relationshipsGenerator.js
lines 15-62) for one model: entries produced for each of its relations.
A relation whose target model is missing from `models` is skipped with a
console warning (lines 18-21); it raises no error. -/
def relEntriesFor (models : List (String × ModelInfo)) (modelName : String) :
    List RelationDecl → List (String × RelationInfo)
  | [] => []
  | relation :: rest =>
    let acc := relEntriesFor models modelName rest
    match lookupStr relation.type models with
    | none => acc
    | some relatedModel =>
      let compositeKeyFields := getCompositeKeyFromModel relatedModel
      let currentModelFk := jsLower modelName ++ "_id"
      let isJunctionTable :=
        match compositeKeyFields with
        | some ks =>
          decide (1 < ks.length) && relation.isArray && ks.contains currentModelFk
        | none => false
      if isJunctionTable then
        match compositeKeyFields with
        | some ks =>
          (relation.name,
            { object := relation.type
              field := strJoin "_" ks
              fields := some (reorderFieldsForModel ks modelName) }) :: acc
        | none => acc
      else
        match findForeignKeyField relation relatedModel with
        | none => acc
        | some fk =>
          (relation.name, { object := relation.type, field := fk }) :: acc

/-- The pure core of `generateRelationships` (relationshipsGenerator.js
lines 9-63): the relationships map it builds before writing it to disk. -/
def generateRelationshipsCore (models : List (String × ModelInfo)) :
    List (String × List (String × RelationInfo)) :=
  models.map (fun m => (m.1, relEntriesFor models m.1 m.2.relations))

end Rapidd.RelGen

namespace Rapidd.SqlToJs

/-!  src/src/parsers/sqlToJsConverter.js — the expression parser  -/

open Rapidd

/-- The AST built by `parseSqlExpression`.  `numLit` keeps the source text
of the numeric literal (the JavaScript code stores `parseFloat` of it). -/
inductive Ast where
  | orN (operands : List Ast)
  | andN (operands : List Ast)
  | notN (operand : Ast)
  | comparison (operator : String) (left : Ast) (right : Option Ast)
  | column (table : Option String) (name : String)
  | strLit (value : String)
  | numLit (value : String)
  | boolLit (value : Bool)
  | nullLit
  | arrayLit (items : List Ast)
  | funcCall (name : String) (args : List Ast)
  | subquery (value : String)
  | rawNode (value : String)

/-- Mirrors the anchored regex test of `splitByOperator`
(sqlToJsConverter.js lines 74-77):
`remaining.match(new RegExp('^\\s+OPERATOR\\s+', 'i'))`.
At least one whitespace character, the operator word case-insensitively,
then at least one whitespace character; both whitespace runs are greedy.
Returns the length of the matched prefix. -/
def matchOpAt (op : List Char) (s : List Char) : Option Nat :=
  let w1 := wsRun s
  if w1 = 0 then none
  else
    let s1 := s.drop w1
    if headIs true op s1 then
      let s2 := s1.drop op.length
      let w2 := wsRun s2
      if w2 = 0 then none else some (w1 + op.length + w2)
    else none

/-- The scanning loop of `splitByOperator` (sqlToJsConverter.js lines 55-97).
`fuel` always exceeds the number of remaining characters.  On a match,
the trimmed accumulator is pushed (even when it trims to empty, as in the
source) and the matched prefix is skipped. -/
def splitGo (op : List Char) :
    Nat → List Char → List Char → Int → List (List Char) → List (List Char)
  | _, [], current, _, parts =>
    if (trimWs current).isEmpty then parts else parts ++ [trimWs current]
  | 0, _ :: _, current, _, parts =>
    if (trimWs current).isEmpty then parts else parts ++ [trimWs current]
  | fuel + 1, c :: cs, current, depth, parts =>
    if c = '(' then splitGo op fuel cs (current ++ [c]) (depth + 1) parts
    else if c = ')' then splitGo op fuel cs (current ++ [c]) (depth - 1) parts
    else if depth = 0 then
      match matchOpAt op (c :: cs) with
      | some n => splitGo op fuel ((c :: cs).drop n) [] depth (parts ++ [trimWs current])
      | none => splitGo op fuel cs (current ++ [c]) depth parts
    else splitGo op fuel cs (current ++ [c]) depth parts

/-- `splitByOperator` (sqlToJsConverter.js lines 55-97). -/
def splitByOperator (sql : List Char) (op : List Char) : List (List Char) :=
  let parts := splitGo op (sql.length + 1) sql [] 0 []
  if parts.isEmpty then [sql] else parts

/-- The loop of `findOperatorIndex` (sqlToJsConverter.js lines 179-212):
tracks parenthesis depth and quoting, and applies the word-boundary test
for symbolic operators using the previous character. -/
def findOpGo (op : List Char) :
    List Char → Nat → Option Char → Int → Bool → Char → Option Nat
  | [], _, _, _, _, _ => none
  | c :: cs, i, prev, depth, inQuotes, quoteChar =>
    if (c = '\'' || c = '"') && !inQuotes then
      findOpGo op cs (i + 1) (some c) depth true c
    else if c = quoteChar && inQuotes then
      findOpGo op cs (i + 1) (some c) depth false ' '
    else if !inQuotes then
      if c = '(' then findOpGo op cs (i + 1) (some c) (depth + 1) inQuotes quoteChar
      else if c = ')' then findOpGo op cs (i + 1) (some c) (depth - 1) inQuotes quoteChar
      else if depth = 0 && headIs true op (c :: cs) then
        if op.head? = some ' ' then some i
        else if i = 0 || !(match prev with | some p => isAlphanumeric p | none => true) then
          some i
        else findOpGo op cs (i + 1) (some c) depth inQuotes quoteChar
      else findOpGo op cs (i + 1) (some c) depth inQuotes quoteChar
    else findOpGo op cs (i + 1) (some c) depth inQuotes quoteChar

/-- `findOperatorIndex` (sqlToJsConverter.js lines 179-212). -/
def findOperatorIndex (sql : List Char) (op : List Char) : Option Nat :=
  findOpGo op sql 0 none 0 false ' '

/-- The ordered operator table of `parseComparisonExpression`
(sqlToJsConverter.js line 152). -/
def comparisonOps : List (List Char) :=
  ["<=".data, ">=".data, "<>".data, "!=".data, "=".data, "<".data, ">".data,
   " IN ".data, " NOT IN ".data, " LIKE ".data, " ILIKE ".data,
   " IS NULL".data, " IS NOT NULL".data]

/-- The operator loop of `parseComparisonExpression`
(sqlToJsConverter.js lines 154-167): first operator with an index. -/
def findComparisonGo (sql : List Char) : List (List Char) → Option (List Char × Nat)
  | [] => none
  | op :: ops =>
    match findOperatorIndex sql op with
    | some i => some (op, i)
    | none => findComparisonGo sql ops

/-- The first operator of `comparisonOps` found in `sql`, with its index. -/
def findComparison (sql : List Char) : Option (List Char × Nat) :=
  findComparisonGo sql comparisonOps

/-- The number test `/^-?\d+(\.\d+)?$/` of `parseValue`
(sqlToJsConverter.js line 251). -/
def numCheck (s : List Char) : Bool :=
  let s1 := if s.head? = some '-' then s.tail else s
  let d1 := runOf isDigitCh s1
  if d1 = 0 then false
  else
    let rest := s1.drop d1
    rest.isEmpty ||
      (rest.head? = some '.' &&
        (let d2 := runOf isDigitCh rest.tail
         decide (d2 ≠ 0) && (rest.tail.drop d2).isEmpty))

/-- The type-cast stripper `/^(.+)::[\w_]+$/` of `parseValue`
(sqlToJsConverter.js lines 223-226).  The greedy `(.+)` puts the `::` as
late as possible, which pins it immediately before the maximal trailing
word-character run; the captured prefix is trimmed as in the source. -/
def stripTypeCast (s : List Char) : List Char :=
  let w := runOf isWordChar s.reverse
  if w = 0 then s
  else
    let pre := s.take (s.length - w)
    if 3 ≤ pre.length && pre.drop (pre.length - 2) = [':', ':'] then
      trimWs (pre.take (pre.length - 2))
    else s

/-- The function-call pattern `/^(\w+)\((.*)\)$/` of `parseValue`
(sqlToJsConverter.js line 269): a leading word run, an opening parenthesis,
a greedy body and a closing parenthesis as the final character.  Returns
the name and the comma-split, trimmed argument texts (empty body means no
arguments, as in the source). -/
def funcMatchAt (v : List Char) : Option (List Char × List (List Char)) :=
  let n := wordRun v
  if n = 0 then none
  else if (v.drop n).head? = some '(' && v.getLast? = some ')' && n + 1 < v.length then
    let inner := ((v.drop (n + 1)).dropLast)
    some (v.take n, if inner.isEmpty then [] else (splitOnComma inner).map trimWs)
  else none

/-- `parseValue` (sqlToJsConverter.js lines 219-299), with fuel for the
recursion into array items and function arguments. -/
def parseValueF : Nat → List Char → Ast
  | 0, s => .rawNode ⟨s⟩
  | fuel + 1, v0 =>
    let v := stripTypeCast (trimWs v0)
    if upStr v = "NULL".data then .nullLit
    else if upStr v = "TRUE".data then .boolLit true
    else if upStr v = "FALSE".data then .boolLit false
    else if (v.head? = some '\'' && v.getLast? = some '\'') ||
            (v.head? = some '"' && v.getLast? = some '"') then
      .strLit ⟨(v.drop 1).dropLast⟩
    else if numCheck v then .numLit ⟨v⟩
    else if v.head? = some '(' && v.getLast? = some ')' then
      .arrayLit ((splitOnComma ((v.drop 1).dropLast)).map
        (fun item => parseValueF fuel (trimWs item)))
    else
      match funcMatchAt v with
      | some (name, args) => .funcCall ⟨name⟩ (args.map (parseValueF fuel))
      | none =>
        if !v.isEmpty && v.all (fun c => isWordChar c || c = '.') then
          match splitOnChar '.' v with
          | [t, c] => .column (some ⟨t⟩) ⟨c⟩
          | _ => .column none ⟨v⟩
        else .rawNode ⟨v⟩

/-- `countParentheses` (sqlToJsConverter.js lines 304-311). -/
def countParens (s : List Char) : Int :=
  s.foldl (fun acc c => if c = '(' then acc + 1 else if c = ')' then acc - 1 else acc) 0

/-- The suffix of the `= ANY (ARRAY[...])` pattern
`/^(.+?)\s*=\s*ANY\s*\(\s*ARRAY\s*\[([^\]]+)\]\s*\)/i`
(sqlToJsConverter.js line 125), matched at the head of `s`; returns the
bracket capture. -/
def anyArrayTail (s : List Char) : Option (List Char) :=
  let s1 := s.drop (wsRun s)
  if s1.head? = some '=' then
    let s2 := s1.tail
    let s3 := s2.drop (wsRun s2)
    if headIs true "ANY".data s3 then
      let s4 := s3.drop 3
      let s5 := s4.drop (wsRun s4)
      if s5.head? = some '(' then
        let s6 := s5.tail
        let s7 := s6.drop (wsRun s6)
        if headIs true "ARRAY".data s7 then
          let s8 := s7.drop 5
          let s9 := s8.drop (wsRun s8)
          if s9.head? = some '[' then
            let s10 := s9.tail
            let cap := s10.takeWhile (fun c => c ≠ ']')
            if !cap.isEmpty && (s10.drop cap.length).head? = some ']' then
              let s11 := s10.drop (cap.length + 1)
              let s12 := s11.drop (wsRun s11)
              if s12.head? = some ')' then some cap else none
            else none
          else none
        else none
      else none
    else none
  else none

/-- Splits off the lazily matched `(.+?)` of an anchored pattern: the
smallest positive split point whose suffix matches `f`. -/
def lazySplitGo {α : Type} (f : List Char → Option α) :
    List Char → Nat → Option (Nat × α)
  | [], _ => none
  | _ :: cs, k =>
    match f cs with
    | some r => some (k + 1, r)
    | none => lazySplitGo f cs (k + 1)

/-- The `IN (SELECT` pattern suffix `/^(.+?)\s+IN\s+\(SELECT/i`
(sqlToJsConverter.js line 141). -/
def inSelectTail (s : List Char) : Option Unit :=
  let w1 := wsRun s
  if w1 = 0 then none
  else
    let s1 := s.drop w1
    if headIs true "IN".data s1 then
      let s2 := s1.drop 2
      let w2 := wsRun s2
      if w2 = 0 then none
      else
        let s3 := s2.drop w2
        if headIs true "(SELECT".data s3 then some () else none
    else none

/-- `parseComparisonExpression` (sqlToJsConverter.js lines 104-171).
`recurLogical` is the call back into `parseLogicalExpression`; `vfuel`
fuels `parseValue`. -/
def parseComparisonCore (recurLogical : List Char → Ast) (vfuel : Nat)
    (sql0 : List Char) : Ast :=
  let sql := trimWs sql0
  if sql.head? = some '(' && sql.getLast? = some ')' &&
      countParens ((sql.drop 1).dropLast) = 0 then
    recurLogical ((sql.drop 1).dropLast)
  else if headIs false "NOT ".data (upStr sql) then
    .notN (recurLogical (trimWs (sql.drop 4)))
  else
    match lazySplitGo anyArrayTail sql 0 with
    | some (k, cap) =>
      .comparison "IN" (parseValueF vfuel (trimWs (sql.take k)))
        (some (.arrayLit ((splitOnComma cap).map
          (fun item => parseValueF vfuel (trimWs item)))))
    | none =>
      match lazySplitGo inSelectTail sql 0 with
      | some (k, _) =>
        .comparison "IN" (parseValueF vfuel (trimWs (sql.take k)))
          (some (.subquery "/* Subquery - needs manual implementation */"))
      | none =>
        match findComparison sql with
        | some (op, i) =>
          let left := trimWs (sql.take i)
          let right := trimWs (sql.drop (i + op.length))
          let opT := trimWs op
          .comparison ⟨opT⟩ (parseValueF vfuel left)
            (if hasSub "IS".data opT then none else some (parseValueF vfuel right))
        | none => parseValueF vfuel sql

/-- `parseLogicalExpression` (sqlToJsConverter.js lines 26-47), fuelled. -/
def parseLogicalF : Nat → List Char → Ast
  | 0, s => .rawNode ⟨s⟩
  | fuel + 1, sql =>
    let orParts := splitByOperator sql "OR".data
    if 1 < orParts.length then .orN (orParts.map (parseLogicalF fuel))
    else
      let andParts := splitByOperator sql "AND".data
      if 1 < andParts.length then .andN (andParts.map (parseLogicalF fuel))
      else parseComparisonCore (parseLogicalF fuel) (sql.length + 1) sql

/-- `parseSqlExpression` (sqlToJsConverter.js lines 11-19): falsy (empty)
input yields `null`, otherwise the input is trimmed and parsed. -/
def parseSqlExpression (s : String) : Option Ast :=
  if s = "" then none
  else some (parseLogicalF (s.data.length * 2 + 8) (trimWs s.data))

/-- A parenthesis-free, whitespace-free, non-empty operand that does not
begin with one of the logical operator words (case-insensitively): the
shape of the comparison-level subexpressions in the precedence claim,
such as `x=1` or `owner_id=5` written without inner spaces. -/
def cleanAtom (s : List Char) : Bool :=
  !s.isEmpty &&
  s.all (fun ch => !isWsJS ch && !(ch = '(') && !(ch = ')')) &&
  !headIs true "OR".data s && !headIs true "AND".data s

end Rapidd.SqlToJs

namespace Rapidd

/-- JavaScript `replace(/\s+/g, ' ')`: collapse every whitespace run into a
single space. -/
def collapseWsGo : List Char → Bool → List Char
  | [], _ => []
  | c :: cs, prevWs =>
    if isWsJS c then
      if prevWs then collapseWsGo cs true else ' ' :: collapseWsGo cs true
    else c :: collapseWsGo cs false

def collapseWs (s : List Char) : List Char := collapseWsGo s false

/-- JavaScript `replace(/a/g, b)` for single characters. -/
def replaceChar (a b : Char) (s : List Char) : List Char :=
  s.map (fun c => if c = a then b else c)

def getLastD (s : List Char) (d : Char) : Char := s.getLastD d

end Rapidd

namespace Rapidd.AutoRLS

/-!  src/src/parsers/autoRLSConverter.js — `createConverter`  -/

open Rapidd

/-- A discovered function mapping (`functionMappings[funcName]`): the
`javascript` member may be absent. -/
abbrev FuncMappings := List (String × Option String)

/-- Discovered session-variable mappings. -/
abbrev SessionVars := List (String × String)

/-- The window test of `splitLogicalOperator` (autoRLSConverter.js lines
292-294): `sql.substring(i, i + operator.length + 2)` matched against
`/\s+OPERATOR\s+/i`.  The window is exactly `operator.length + 2`
characters long and the pattern needs at least that many, so the test
succeeds exactly when the window is a whitespace character, the operator
case-insensitively, and a whitespace character. -/
def windowMatches (op : List Char) (s : List Char) : Bool :=
  let w := s.take (op.length + 2)
  w.length = op.length + 2 &&
    (match w with
     | c :: rest =>
       isWsJS c && headIs true op rest && isWsJS (getLastD rest ' ')
     | [] => false)

/-- The scanning loop of `splitLogicalOperator` (autoRLSConverter.js lines
277-307).  On a window match the code pushes the trimmed accumulator (only
when non-empty), jumps `operator.length + 1` characters ahead, and the
loop footer then appends the trailing whitespace character of the window
to the fresh accumulator. -/
def splitLogGo (op : List Char) :
    Nat → List Char → List Char → Bool → Int → List (List Char) → List (List Char)
  | _, [], current, _, _, parts =>
    if (trimWs current).isEmpty then parts else parts ++ [trimWs current]
  | 0, _ :: _, current, _, _, parts =>
    if (trimWs current).isEmpty then parts else parts ++ [trimWs current]
  | fuel + 1, c :: cs, current, inQuotes, depth, parts =>
    if c = '\'' && !inQuotes then
      splitLogGo op fuel cs (current ++ [c]) true depth parts
    else if c = '\'' && inQuotes then
      splitLogGo op fuel cs (current ++ [c]) false depth parts
    else if c = '(' then
      splitLogGo op fuel cs (current ++ [c]) inQuotes (depth + 1) parts
    else if c = ')' then
      splitLogGo op fuel cs (current ++ [c]) inQuotes (depth - 1) parts
    else if depth = 0 && windowMatches op (c :: cs) then
      let parts' := if (trimWs current).isEmpty then parts else parts ++ [trimWs current]
      let rest := (c :: cs).drop (op.length + 1)
      match rest with
      | w :: rest' => splitLogGo op fuel rest' [w] inQuotes depth parts'
      | [] => splitLogGo op fuel [] [] inQuotes depth parts'
    else
      splitLogGo op fuel cs (current ++ [c]) inQuotes depth parts

/-- `splitLogicalOperator` (autoRLSConverter.js lines 277-307); returns
`[sql]` unless more than one part was found. -/
def splitLogicalOperator (sql : List Char) (op : List Char) : List (List Char) :=
  let parts := splitLogGo op (sql.length + 1) sql [] false 0 []
  if 1 < parts.length then parts else [sql]

/-- `extractArrayValues` cast strip `replace(/::[^,\]]+/g, '')`
(autoRLSConverter.js line 316). -/
def stripCastsGo : Nat → List Char → List Char
  | 0, s => s
  | _ + 1, [] => []
  | fuel + 1, c :: cs =>
    if c = ':' && cs.head? = some ':' then
      let after := cs.tail
      let r := runOf (fun x => !(x = ',' || x = ']')) after
      if r = 0 then c :: stripCastsGo fuel cs
      else stripCastsGo fuel (after.drop r)
    else c :: stripCastsGo fuel cs

def stripCasts (s : List Char) : List Char := stripCastsGo (s.length + 1) s

/-- `extractArrayValues` quote strip `replace(/^'|'$/g, '')`
(autoRLSConverter.js line 317): drop a leading and a trailing single
quote independently. -/
def stripEdgeQuotes (s : List Char) : List Char :=
  match s with
  | [] => []
  | [c] => if c = '\'' then [] else [c]
  | _ =>
    let a := if s.head? = some '\'' then s.tail else s
    if a.getLast? = some '\'' then a.dropLast else a

/-- `extractArrayValues` (autoRLSConverter.js lines 312-320) as a list of
the emitted elements: each element is re-wrapped in single quotes whatever
its original literal kind was. -/
def extractArrayValuesList (arrayContent : List Char) : List (List Char) :=
  ((splitOnComma arrayContent).map trimWs).map
    (fun r => '\'' :: stripEdgeQuotes (stripCasts r) ++ ['\''])

/-- `extractArrayValues` (autoRLSConverter.js lines 312-320). -/
def extractArrayValues (arrayContent : List Char) : List Char :=
  joinWith ", ".data (extractArrayValuesList arrayContent)

/-- The capture of `/get_current_(\w+)/i` searched in a function name
(autoRLSConverter.js line 115). -/
def getCurrentCapture (name : List Char) : Option (List Char) :=
  scanStarts (fun s =>
    if headIs true "get_current_".data s then
      let rest := s.drop 12
      let n := wordRun rest
      if n = 0 then none else some (rest.take n)
    else none) name

/-- The capture of `/current_(\w+)/i` searched in a function name
(autoRLSConverter.js line 121). -/
def currentCapture (name : List Char) : Option (List Char) :=
  scanStarts (fun s =>
    if headIs true "current_".data s then
      let rest := s.drop 8
      let n := wordRun rest
      if n = 0 then none else some (rest.take n)
    else none) name

/-- `getFunctionMapping` (autoRLSConverter.js lines 97-128): discovered
mapping first (its `user` placeholder substituted), then the role special
case, then `get_current_<X>` and `current_<X>` inference, and finally a
method-call fallback `<userVar>?.<funcName>()`. -/
def getFunctionMapping (fm : FuncMappings) (funcName userVar : List Char) : List Char :=
  match RelGen.lookupStr (⟨funcName⟩ : String) fm with
  | some (some js) => replaceSub "user".data userVar (js.data.length + 1) js.data
  | _ =>
    if lowStr funcName = "get_current_user_role".data ||
       lowStr funcName = "current_user_role".data then
      userVar ++ "?.role".data
    else
      match getCurrentCapture funcName with
      | some x => userVar ++ "?.".data ++ x
      | none =>
        match currentCapture funcName with
        | some x => userVar ++ "?.".data ++ x
        | none => userVar ++ "?.".data ++ funcName ++ "()".data

/-- `getSessionMapping` (autoRLSConverter.js lines 133-147). -/
def getSessionMapping (sv : SessionVars) (setting userVar : List Char) : List Char :=
  match RelGen.lookupStr (⟨setting⟩ : String) sv with
  | some js => replaceSub "user".data userVar (js.data.length + 1) js.data
  | none =>
    if hasSub "user_id".data setting then userVar ++ "?.id".data
    else
      let parts := splitOnChar '.' setting
      userVar ++ "?.".data ++ parts.getLastD setting

/-- Searches `/(\w+)\s*\([^)]*\)[^=]*=\s*ANY\s*\(\s*(?:\()?ARRAY\s*\[([^\]]+)\]/i`
(autoRLSConverter.js line 39).  At a match start the greedy `(\w+)` is
forced to the maximal word run (a shorter run would leave a word character
where `\s*\(` must match), so matching is deterministic. -/
def funcAnyHere (s : List Char) : Option (List Char × List Char) :=
  let n := wordRun s
  if n = 0 then none
  else
    let funcName := s.take n
    let s1 := s.drop n
    let s2 := s1.drop (wsRun s1)
    if s2.head? = some '(' then
      let body := (s2.tail).takeWhile (fun c => c ≠ ')')
      let s3 := (s2.tail).drop body.length
      if s3.head? = some ')' then
        let s4 := (s3.tail).takeWhile (fun c => c ≠ '=')
        let s5 := (s3.tail).drop s4.length
        if s5.head? = some '=' then
          let s6 := s5.tail
          let s7 := s6.drop (wsRun s6)
          if headIs true "ANY".data s7 then
            let s8 := s7.drop 3
            let s9 := s8.drop (wsRun s8)
            if s9.head? = some '(' then
              let s10 := s9.tail
              let s11 := s10.drop (wsRun s10)
              let s12 := if s11.head? = some '(' then s11.tail else s11
              if headIs true "ARRAY".data s12 then
                let s13 := s12.drop 5
                let s14 := s13.drop (wsRun s13)
                if s14.head? = some '[' then
                  let cap := (s14.tail).takeWhile (fun c => c ≠ ']')
                  if !cap.isEmpty && ((s14.tail).drop cap.length).head? = some ']' then
                    some (funcName, cap)
                  else none
                else none
              else none
            else none
          else none
        else none
      else none
    else none

def funcAnyMatch (sql : List Char) : Option (List Char × List Char) :=
  scanStarts funcAnyHere sql

/-- Searches `/(\w+)\s*\([^)]*\)\s*=\s*'([^']+)'/i`
(autoRLSConverter.js line 50). -/
def funcValueHere (s : List Char) : Option (List Char × List Char) :=
  let n := wordRun s
  if n = 0 then none
  else
    let funcName := s.take n
    let s1 := s.drop n
    let s2 := s1.drop (wsRun s1)
    if s2.head? = some '(' then
      let body := (s2.tail).takeWhile (fun c => c ≠ ')')
      let s3 := (s2.tail).drop body.length
      if s3.head? = some ')' then
        let s4 := s3.tail
        let s5 := s4.drop (wsRun s4)
        if s5.head? = some '=' then
          let s6 := s5.tail
          let s7 := s6.drop (wsRun s6)
          if s7.head? = some '\'' then
            let cap := (s7.tail).takeWhile (fun c => c ≠ '\'')
            if !cap.isEmpty && ((s7.tail).drop cap.length).head? = some '\'' then
              some (funcName, cap)
            else none
          else none
        else none
      else none
    else none

def funcValueMatch (sql : List Char) : Option (List Char × List Char) :=
  scanStarts funcValueHere sql

/-- Searches `/(\w+)\s*=\s*(\w+)\s*\([^)]*\)/i` (autoRLSConverter.js
line 60): a `field = function(...)` comparison. -/
def fieldFuncHere (s : List Char) : Option (List Char × List Char) :=
  let n := wordRun s
  if n = 0 then none
  else
    let field := s.take n
    let s1 := s.drop n
    let s2 := s1.drop (wsRun s1)
    if s2.head? = some '=' then
      let s3 := s2.tail
      let s4 := s3.drop (wsRun s3)
      let m := wordRun s4
      if m = 0 then none
      else
        let funcName := s4.take m
        let s5 := s4.drop m
        let s6 := s5.drop (wsRun s5)
        if s6.head? = some '(' then
          let body := (s6.tail).takeWhile (fun c => c ≠ ')')
          if ((s6.tail).drop body.length).head? = some ')' then
            some (field, funcName)
          else none
        else none
    else none

def fieldFuncMatch (sql : List Char) : Option (List Char × List Char) :=
  scanStarts fieldFuncHere sql

/-- Searches `/(\w+)\s*=\s*\(\s*current_setting\s*\(\s*'([^']+)'/i`
(autoRLSConverter.js line 70). -/
def settingHere (s : List Char) : Option (List Char × List Char) :=
  let n := wordRun s
  if n = 0 then none
  else
    let field := s.take n
    let s1 := s.drop n
    let s2 := s1.drop (wsRun s1)
    if s2.head? = some '=' then
      let s3 := s2.tail
      let s4 := s3.drop (wsRun s3)
      if s4.head? = some '(' then
        let s5 := s4.tail
        let s6 := s5.drop (wsRun s5)
        if headIs true "current_setting".data s6 then
          let s7 := s6.drop 15
          let s8 := s7.drop (wsRun s7)
          if s8.head? = some '(' then
            let s9 := s8.tail
            let s10 := s9.drop (wsRun s9)
            if s10.head? = some '\'' then
              let cap := (s10.tail).takeWhile (fun c => c ≠ '\'')
              if !cap.isEmpty && ((s10.tail).drop cap.length).head? = some '\'' then
                some (field, cap)
              else none
            else none
          else none
        else none
      else none
    else none

def settingMatchA (sql : List Char) : Option (List Char × List Char) :=
  scanStarts settingHere sql

/-- Searches `/FROM\s+(\w+)/i` (autoRLSConverter.js line 82). -/
def tableMatch (sql : List Char) : Option (List Char) :=
  scanStarts (fun s =>
    if headIs true "FROM".data s then
      let s1 := s.drop 4
      let w := wsRun s1
      if w = 0 then none
      else
        let s2 := s1.drop w
        let n := wordRun s2
        if n = 0 then none else some (s2.take n)
    else none) sql

/-- The head match of `CASE\s+([^W]+)\s+` within `convertCaseWhen`
(autoRLSConverter.js line 153).  `[^W]+` (case-insensitive, so excluding
both `W` and `w`) cannot cross the first `W`; the greedy leading `\s+`
takes as much of the gap as possible and the trailing `\s+` backtracks the
minimal whitespace out of `[^W]+`.  Returns the discriminant capture and
the offset of the first `W`. -/
def caseHeadSplit (body : List Char) : Option (List Char × Nat) :=
  let idx := runOf (fun c => !(c = 'W' || c = 'w')) body
  let pre := body.take idx
  let l := min (wsRun pre) (pre.length - 2)
  if l = 0 then none
  else
    let rem := pre.drop l
    let tr := wsRun rem.reverse
    let t := min tr (rem.length - 1)
    if t = 0 then none
    else some (rem.take (rem.length - t), idx)

/-- The `\s+ELSE\s+` test at a group-2 boundary (autoRLSConverter.js
line 153); returns the consumed length. -/
def elseAt (s : List Char) : Option Nat :=
  let w1 := wsRun s
  if w1 = 0 then none
  else
    let s1 := s.drop w1
    if headIs true "ELSE".data s1 then
      let s2 := s1.drop 4
      let w2 := wsRun s2
      if w2 = 0 then none else some (w1 + 4 + w2)
    else none

/-- The `\s*END` test at a boundary (autoRLSConverter.js line 153). -/
def endAt (s : List Char) : Bool :=
  headIs true "END".data (s.drop (wsRun s))

/-- Lazy scан of `([\s\S]+?)\s*END`: the minimal positive split. -/
def endScan : Nat → List Char → Nat → Option Nat
  | 0, _, _ => none
  | _ + 1, [], _ => none
  | fuel + 1, _ :: cs, r => if endAt cs then some (r + 1) else endScan fuel cs (r + 1)

/-- Finding the group-2 / ELSE / END decomposition of
`((?:WHEN[\s\S]+?)+)(?:\s+ELSE\s+([\s\S]+?))?\s*END` starting at the first
`WHEN` (autoRLSConverter.js line 153): the lazy group 2 stops at the
earliest boundary where either the optional ELSE part (preferred) or
`\s*END` completes the match. -/
def caseTailSplit (rest : List Char) : Nat → Nat → Option (Nat × Option (List Char))
  | 0, _ => none
  | fuel + 1, q =>
    if rest.length < q + 1 then none
    else
      let atQ := rest.drop q
      match elseAt atQ with
      | some n =>
        let g3 := atQ.drop n
        (match endScan (g3.length + 1) g3 0 with
         | some r => some (q, some (g3.take r))
         | none =>
           if endAt atQ then some (q, none)
           else caseTailSplit rest fuel (q + 1))
      | none =>
        if endAt atQ then some (q, none)
        else caseTailSplit rest fuel (q + 1)

/-- The full `caseMatch` regex of autoRLSConverter.js line 153:
`/CASE\s+([^W]+)\s+((?:WHEN[\s\S]+?)+)(?:\s+ELSE\s+([\s\S]+?))?\s*END/i`,
searched from the left.  Returns discriminant, WHEN-clause text and
optional ELSE text. -/
def caseMatchA (sql : List Char) : Option (List Char × List Char × Option (List Char)) :=
  scanStarts (fun s =>
    if headIs true "CASE".data s then
      let body := s.drop 4
      match caseHeadSplit body with
      | none => none
      | some (cap1, idx) =>
        let rest := body.drop idx
        if headIs true "WHEN".data rest then
          match caseTailSplit rest (rest.length + 1) 5 with
          | some (q, g3) => some (cap1, rest.take q, g3)
          | none => none
        else none
    else none) sql

/-- The per-branch pattern of the `convertCaseWhen` loop
(autoRLSConverter.js line 165):
`/WHEN\s+'?([^':\s]+)'?(?:::\w+)?\s+THEN\s+((?:(?!WHEN|ELSE|END).)+)/gi`.
Returns the consumed length with the value and THEN captures. -/
def whenHere (s : List Char) : Option (Nat × (List Char × List Char)) :=
  if headIs true "WHEN".data s then
    let s1 := s.drop 4
    let w1 := wsRun s1
    if w1 = 0 then none
    else
      let s2 := s1.drop w1
      let s3 := if s2.head? = some '\'' then s2.tail else s2
      let capLen := runOf (fun c => !(c = '\'' || c = ':' || isWsJS c)) s3
      if capLen = 0 then none
      else
        let cap := s3.take capLen
        let s4 := s3.drop capLen
        let s5 := if s4.head? = some '\'' then s4.tail else s4
        let castLen :=
          if s5.head? = some ':' && (s5.tail).head? = some ':' &&
              0 < wordRun (s5.drop 2) then
            2 + wordRun (s5.drop 2)
          else 0
        let s6 := s5.drop castLen
        let w2 := wsRun s6
        if w2 = 0 then none
        else
          let s7 := s6.drop w2
          if headIs true "THEN".data s7 then
            let s8 := s7.drop 4
            let w3 := wsRun s8
            if w3 = 0 then none
            else
              let s9 := s8.drop w3
              let c2 := temperedRun s9
              if c2 = 0 then none
              else some (s.length - s9.length + c2, (cap, s9.take c2))
          else none
  else none
where
  /-- The tempered run `((?:(?!WHEN|ELSE|END).)+)`: characters consumed
  while no branch keyword starts at the position. -/
  temperedRun : List Char → Nat
    | [] => 0
    | c :: cs =>
      if headIs true "WHEN".data (c :: cs) || headIs true "ELSE".data (c :: cs) ||
          headIs true "END".data (c :: cs) then 0
      else temperedRun cs + 1

/-- `convertCaseWhen` (autoRLSConverter.js lines 152-185).  `recur` is the
callback into `convertToJavaScript` used for complex THEN branches and the
ELSE clause. -/
def convertCaseWhenA (recur : List Char → List Char) (fm : FuncMappings)
    (userVar : List Char) (sql : List Char) : List Char :=
  match caseMatchA sql with
  | none => "false".data
  | some (cap1, whenClauses, elseClause) =>
    let caseExpr := trimWs cap1
    let funcM := scanStarts (fun s =>
      let n := wordRun s
      if n = 0 then none
      else
        let s1 := s.drop n
        if (s1.drop (wsRun s1)).head? = some '(' then some (s.take n) else none) caseExpr
    let testExpression :=
      match funcM with
      | some f => getFunctionMapping fm f userVar
      | none => caseExpr
    let whenMatches := scanAll whenHere (whenClauses.length + 1) whenClauses
    let conditions := whenMatches.foldr (fun (vt : List Char × List Char) acc =>
      let value := vt.1
      let thenExpr := trimWs vt.2
      if lowStr thenExpr = "true".data then
        (testExpression ++ " === '".data ++ value ++ ['\'']) :: acc
      else if lowStr thenExpr = "false".data then acc
      else
        ('(' :: testExpression ++ " === '".data ++ value ++ "' && ".data ++
          recur thenExpr ++ [')']) :: acc) []
    let conditions2 :=
      match elseClause with
      | some e =>
        if lowStr (trimWs e) ≠ "false".data then conditions ++ [recur (trimWs e)]
        else conditions
      | none => conditions
    if conditions2.isEmpty then "false".data
    else '(' :: joinWith " || ".data conditions2 ++ [')']

/-- `convertToJavaScript` of `createConverter` (autoRLSConverter.js lines
14-92), fuelled for the recursion through OR/AND parts and CASE branches. -/
def convertJSA (fm : FuncMappings) (sv : SessionVars) :
    Nat → List Char → List Char → List Char → List Char
  | 0, _, _, sql => sql
  | fuel + 1, dataVar, userVar, sql0 =>
    if (trimWs sql0).isEmpty then "true".data
    else
      let sql := replaceChar '\n' ' ' (collapseWs (trimWs sql0))
      if headIs false "CASE".data (upStr sql) then
        convertCaseWhenA (convertJSA fm sv fuel dataVar userVar) fm userVar sql
      else
        let orParts := splitLogicalOperator sql "OR".data
        if 1 < orParts.length then
          joinWith " || ".data (orParts.map (convertJSA fm sv fuel dataVar userVar))
        else
          let andParts := splitLogicalOperator sql "AND".data
          if 1 < andParts.length then
            '(' :: joinWith " && ".data (andParts.map (convertJSA fm sv fuel dataVar userVar)) ++ [')']
          else
            match funcAnyMatch sql with
            | some (funcName, arrayContent) =>
              '[' :: extractArrayValues arrayContent ++ "].includes(".data ++
                getFunctionMapping fm funcName userVar ++ [')']
            | none =>
              match funcValueMatch sql with
              | some (funcName, value) =>
                getFunctionMapping fm funcName userVar ++ " === '".data ++ value ++ ['\'']
              | none =>
                match fieldFuncMatch sql with
                | some (field, funcName) =>
                  dataVar ++ "?.".data ++ field ++ " === ".data ++
                    getFunctionMapping fm funcName userVar
                | none =>
                  match settingMatchA sql with
                  | some (field, setting) =>
                    dataVar ++ "?.".data ++ field ++ " === ".data ++
                      getSessionMapping sv setting userVar
                  | none =>
                    if hasSub "EXISTS".data sql then
                      let table :=
                        match tableMatch sql with
                        | some t => t
                        | none => "related_table".data
                      "true /* TODO: Check ".data ++ table ++ " relationship */".data
                    else if lowStr sql = "true".data then "true".data
                    else if lowStr sql = "false".data then "false".data
                    else "true /* Unhandled: ".data ++ sql.take 50 ++ "... */".data

/-- `convertToJavaScript` on `String`s with the default converter state
(`createConverter()` with empty analyzed mappings) and the default
variable names `data` and `user`. -/
def autoConvertToJavaScript (sql : String) : String :=
  ⟨convertJSA [] [] (sql.data.length * 2 + 8) "data".data "user".data sql.data⟩

/-- `convertCaseWhen` on `String`s with the default converter state. -/
def autoConvertCaseWhen (sql : String) : String :=
  ⟨convertCaseWhenA (convertJSA [] [] (sql.data.length * 2 + 8) "data".data "user".data)
    [] "user".data sql.data⟩

end Rapidd.AutoRLS

namespace Rapidd.Dyn

/-!  src/unnamed/part_007 — the dynamic RLS converter
(`mapFunctionToUserProperty`, `mapSettingToUserProperty`)  -/

open Rapidd

/-- The built-in mapping table of `mapFunctionToUserProperty`
(part_007 lines 117-127). -/
def builtinMappings : List (String × String) :=
  [("get_current_user_role", "role"),
   ("get_current_user_id", "id"),
   ("current_user_id", "id"),
   ("get_current_teacher_id", "teacher_id"),
   ("get_current_student_id", "student_id"),
   ("get_current_agency_id", "agency_id"),
   ("get_current_school_id", "school_id")]

/-- Match of `/get_current_(\w+)_id/i` at the head of `s` (part_007
line 136).  The greedy `(\w+)` backtracks until a literal `_id` follows,
so the capture runs to the last `_id` occurrence inside the word run. -/
def getIdHere (s : List Char) : Option (List Char) :=
  if headIs true "get_current_".data s then
    let rest := s.drop 12
    descend rest (wordRun rest)
  else none
where
  descend (rest : List Char) : Nat → Option (List Char)
    | 0 => none
    | k + 1 =>
      if headIs true "_id".data (rest.drop (k + 1)) then some (rest.take (k + 1))
      else descend rest k

/-- The capture of `/get_current_(\w+)_id/i` searched in a name. -/
def getIdCapture (name : List Char) : Option (List Char) :=
  scanStarts getIdHere name

/-- `mapFunctionToUserProperty` (part_007 lines 116-155): built-in table,
then `get_current_<X>_id ⇒ <X>_id`, `get_current_<X> ⇒ <X>`,
`current_<X> ⇒ <X>`, and finally the name itself. -/
def mapFunctionToUserProperty (funcName : String) : String :=
  match RelGen.lookupStr funcName builtinMappings with
  | some m => m
  | none =>
    match getIdCapture funcName.data with
    | some x => ⟨x ++ "_id".data⟩
    | none =>
      match AutoRLS.getCurrentCapture funcName.data with
      | some x => ⟨x⟩
      | none =>
        match AutoRLS.currentCapture funcName.data with
        | some x => ⟨x⟩
        | none => funcName

/-- The capture of `/app\.current_(\w+)/i` searched in a setting name
(part_007 line 167). -/
def appCurrentCapture (s : List Char) : Option (List Char) :=
  scanStarts (fun t =>
    if headIs true "app.current_".data t then
      let rest := t.drop 12
      let n := wordRun rest
      if n = 0 then none else some (rest.take n)
    else none) s

/-- `mapSettingToUserProperty` (part_007 lines 160-174): the exact
`app.current_user_id` key, then the `app.current_<X> ⇒ <X>` pattern, and
otherwise the setting sanitized by `replace(/[^a-zA-Z0-9_]/g, '_')`. -/
def mapSettingToUserProperty (setting : String) : String :=
  if setting = "app.current_user_id" then "id"
  else
    match appCurrentCapture setting.data with
    | some x => ⟨x⟩
    | none => ⟨setting.data.map (fun c => if isAlphanumeric c then c else '_')⟩

end Rapidd.Dyn

namespace Rapidd.Adv

/-!  src/src/parsers/advancedRLSConverter.js — `convertRoleCheck`  -/

open Rapidd

/-- The capture of `/ARRAY\s*\[([^\]]+)\]/i` (advancedRLSConverter.js
line 71). -/
def arrayCapture (sql : List Char) : Option (List Char) :=
  scanStarts (fun s =>
    if headIs true "ARRAY".data s then
      let s1 := s.drop 5
      let s2 := s1.drop (wsRun s1)
      if s2.head? = some '[' then
        let cap := (s2.tail).takeWhile (fun c => c ≠ ']')
        if !cap.isEmpty && ((s2.tail).drop cap.length).head? = some ']' then some cap
        else none
      else none
    else none) sql

/-- The capture of `/get_current_user_role\(\)[^=]*=\s*'([^']+)'/i`
(advancedRLSConverter.js line 84). -/
def roleSimpleCapture (sql : List Char) : Option (List Char) :=
  scanStarts (fun s =>
    if headIs true "get_current_user_role()".data s then
      let s1 := s.drop 23
      let gap := s1.takeWhile (fun c => c ≠ '=')
      let s2 := s1.drop gap.length
      if s2.head? = some '=' then
        let s3 := s2.tail
        let s4 := s3.drop (wsRun s3)
        if s4.head? = some '\'' then
          let cap := (s4.tail).takeWhile (fun c => c ≠ '\'')
          if !cap.isEmpty && ((s4.tail).drop cap.length).head? = some '\'' then some cap
          else none
        else none
      else none
    else none) sql

/-- `convertRoleCheck` (advancedRLSConverter.js lines 69-90).  Each array
element is trimmed, stripped of type casts and of its edge quotes, and
re-emitted inside single quotes whatever its original literal kind. -/
def convertRoleCheck (sql userVar : List Char) : List Char :=
  match arrayCapture sql with
  | some cap =>
    let roles := ((splitOnComma cap).map trimWs).map
      (fun r => AutoRLS.stripEdgeQuotes (AutoRLS.stripCasts r))
    let rolesStr := joinWith ", ".data (roles.map (fun r => '\'' :: r ++ ['\'']))
    '[' :: rolesStr ++ "].includes(".data ++ userVar ++ "?.role)".data
  | none =>
    match roleSimpleCapture sql with
    | some v => userVar ++ "?.role === '".data ++ v ++ ['\'']
    | none => "true /* Unparseable role check */".data

/-- `convertRoleCheck` on `String`s with the default `user` variable. -/
def advConvertRoleCheck (sql : String) : String :=
  ⟨convertRoleCheck sql.data "user".data⟩

end Rapidd.Adv

namespace Rapidd.Deep

/-!  src/src/parsers/deepSQLAnalyzer.js — `DeepSQLAnalyzer`

The analyzer's `userContext` bookkeeping is not embedded: no embedded
consumer (`buildFilter` / `buildJavaScriptCondition`) reads it.  -/

open Rapidd

/-- One entry of `analysis.filters`.  The `prisma` rendering member is
not carried: the filter builder recomputes its own rendering. -/
structure SqlFilter where
  type : String
  field : String := ""
  userField : Option String := none
  value : String := ""
  values : List String := []
deriving Repr, DecidableEq

/-- One entry of `analysis.conditions`. -/
structure SqlCond where
  type : String
  roles : List String := []
  role : String := ""
  javascript : Option String := none
  table : String := ""
  condition : String := ""
  field : String := ""
  subquery : String := ""
deriving Repr, DecidableEq

/-- The result of `analyzeSQLForFilters`, together with the raw `sql`
member attached by the enhanced converter for OR/AND detection. -/
structure Analysis where
  filters : List SqlFilter := []
  conditions : List SqlCond := []
  sql : String := ""
deriving Repr, DecidableEq

/-- `this.functionMappings` (deepSQLAnalyzer.js lines 9-48). -/
def functionMappings : List (String × String) :=
  [("get_current_user_id", "id"), ("current_user_id", "id"),
   ("auth.uid", "id"), ("auth.user_id", "id"),
   ("get_current_user_role", "role"), ("current_user_role", "role"),
   ("current_role", "role"), ("auth.role", "role"),
   ("get_current_tenant_id", "tenant_id"), ("current_tenant_id", "tenant_id"),
   ("current_tenant", "tenant_id"),
   ("get_current_org_id", "org_id"), ("current_org_id", "org_id"),
   ("current_organization_id", "org_id"),
   ("get_current_student_id", "student_id"), ("current_student_id", "student_id"),
   ("get_student_id_for_user", "student_id"),
   ("get_current_teacher_id", "teacher_id"), ("current_teacher_id", "teacher_id"),
   ("get_teacher_id_for_user", "teacher_id"),
   ("get_current_employee_id", "employee_id"), ("current_employee_id", "employee_id"),
   ("get_employee_id_for_user", "employee_id"),
   ("get_current_customer_id", "customer_id"), ("current_customer_id", "customer_id"),
   ("get_customer_id_for_user", "customer_id")]

/-- `this.sessionMappings` (deepSQLAnalyzer.js lines 51-67). -/
def sessionMappings : List (String × String) :=
  [("app.current_user_id", "id"), ("jwt.claims.sub", "id"),
   ("request.jwt.claims.sub", "id"), ("request.jwt.claim.sub", "id"),
   ("app.current_role", "role"), ("jwt.claims.role", "role"),
   ("request.jwt.claim.role", "role"),
   ("app.current_tenant", "tenant_id"), ("app.tenant_id", "tenant_id"),
   ("jwt.claims.tenant_id", "tenant_id"),
   ("app.org_id", "org_id"), ("app.organization_id", "org_id")]

/-- Case-insensitive literal replacement, for
`replace(/::character varying/gi, '')` (deepSQLAnalyzer.js line 115). -/
def replaceSubCI (pat : List Char) : Nat → List Char → List Char
  | 0, s => s
  | _ + 1, [] => []
  | fuel + 1, c :: cs =>
    if pat ≠ [] && headIs true pat (c :: cs) then
      replaceSubCI pat fuel ((c :: cs).drop pat.length)
    else
      c :: replaceSubCI pat fuel cs

/-- `replace(/::[\w_]+\s*\[\]/g, ']')` (deepSQLAnalyzer.js line 116). -/
def stripArrayCastsGo : Nat → List Char → List Char
  | 0, s => s
  | _ + 1, [] => []
  | fuel + 1, c :: cs =>
    (if c = ':' && cs.head? = some ':' then
      let after := cs.tail
      let r := wordRun after
      if r = 0 then none
      else
        let s1 := after.drop r
        let s2 := s1.drop (wsRun s1)
        if s2.head? = some '[' && (s2.tail).head? = some ']' then
          some (']' :: stripArrayCastsGo fuel (s2.tail).tail)
        else none
    else none).getD (c :: stripArrayCastsGo fuel cs)

/-- `replace(/::[\w_]+/g, '')` (deepSQLAnalyzer.js line 117). -/
def stripSimpleCastsGo : Nat → List Char → List Char
  | 0, s => s
  | _ + 1, [] => []
  | fuel + 1, c :: cs =>
    if c = ':' && cs.head? = some ':' then
      let after := cs.tail
      let r := wordRun after
      if r = 0 then c :: stripSimpleCastsGo fuel cs
      else stripSimpleCastsGo fuel (after.drop r)
    else c :: stripSimpleCastsGo fuel cs

/-- Is the balanced-outer-parentheses strip of `normalizeSql` applicable?
(deepSQLAnalyzer.js lines 121-141). -/
def parenStripApplies (s : List Char) : Bool :=
  s.head? = some '(' && s.getLast? = some ')' &&
    (let inner := (s.drop 1).dropLast
     balancedScan inner 0 &&
       (hasSub " = ".data inner || hasSub " AND ".data inner || hasSub " OR ".data inner))
where
  /-- Depth never becomes negative and ends at zero. -/
  balancedScan : List Char → Int → Bool
    | [], d => d = 0
    | c :: cs, d =>
      let d' := if c = '(' then d + 1 else if c = ')' then d - 1 else d
      if d' < 0 then false else balancedScan cs d'

/-- The while loop stripping wrapping parentheses in `normalizeSql`
(deepSQLAnalyzer.js lines 121-141). -/
def parenStripLoop : Nat → List Char → List Char
  | 0, s => s
  | fuel + 1, s =>
    if parenStripApplies s then parenStripLoop fuel (trimWs ((s.drop 1).dropLast))
    else s

/-- `normalizeSql` (deepSQLAnalyzer.js lines 110-144). -/
def normalizeSql (sql : List Char) : List Char :=
  let a := replaceChar '\t' ' ' (replaceChar '\n' ' ' (collapseWs sql))
  let b := replaceSubCI "::character varying".data (a.length + 1) a
  let c := stripArrayCastsGo (b.length + 1) b
  let d := stripSimpleCastsGo (c.length + 1) c
  parenStripLoop (d.length + 1) (trimWs d)

/-- Position of the first `/EXISTS\s*\(/i` match (deepSQLAnalyzer.js
line 156), together with the offset of its opening parenthesis. -/
def existsOpen (s : List Char) : Option (Nat × Nat) :=
  scanStartsAt (fun t =>
    if headIs true "EXISTS".data t then
      let w := wsRun (t.drop 6)
      if (t.drop (6 + w)).head? = some '(' then some (6 + w) else none
    else none) s

/-- Matching-parenthesis scan of `removeExistsSubqueries`
(deepSQLAnalyzer.js lines 160-168): position one past the closing
parenthesis (or the end of the string when unbalanced). -/
def closeScan : List Char → Int → Nat → Nat
  | [], _, n => n
  | c :: cs, depth, n =>
    let depth' := if c = '(' then depth + 1 else if c = ')' then depth - 1 else depth
    if depth' = 0 then n + 1 else closeScan cs depth' (n + 1)

/-- `removeExistsSubqueries` (deepSQLAnalyzer.js lines 149-177): every
`EXISTS (...)` construct is replaced by `true`. -/
def removeExistsSubqueries : Nat → List Char → List Char
  | 0, s => s
  | fuel + 1, s =>
    match existsOpen s with
    | none => s
    | some (i, o) =>
      let startParen := i + o
      let endParen := startParen + 1 + closeScan (s.drop (startParen + 1)) 1 0
      removeExistsSubqueries fuel (s.take i ++ "true".data ++ s.drop endParen)

/-- Head match of the optionally quoted field of
`(?:"?(\w+)"?)` followed by `\s*=\s*`; returns the field and the suffix
after the `=`. -/
def fieldEqHere (s : List Char) : Option (List Char × List Char) :=
  let s0 := if s.head? = some '"' then s.tail else s
  let n := wordRun s0
  if n = 0 then none
  else
    let field := s0.take n
    let s1 := s0.drop n
    let s2 := if s1.head? = some '"' then s1.tail else s1
    let s3 := s2.drop (wsRun s2)
    if s3.head? = some '=' then
      let s4 := s3.tail
      some (field, s4.drop (wsRun s4))
    else none

/-- The `current`/`get` skip of the extractors (deepSQLAnalyzer.js
lines 191, 210, 297, 401). -/
def skipField (field : List Char) : Bool :=
  hasSub "current".data (lowStr field) || hasSub "get".data (lowStr field)

/-- One match of `/(?:"?(\w+)"?)\s*=\s*'([^']+)'/gi`
(deepSQLAnalyzer.js line 184). -/
def directStrHere (s : List Char) : Option (Nat × (List Char × List Char)) :=
  match fieldEqHere s with
  | none => none
  | some (field, rest) =>
    if rest.head? = some '\'' then
      let cap := (rest.tail).takeWhile (fun c => c ≠ '\'')
      if !cap.isEmpty && ((rest.tail).drop cap.length).head? = some '\'' then
        some (s.length - rest.length + cap.length + 2, (field, cap))
      else none
    else none

/-- One match of `/(?:"?(\w+)"?)\s*=\s*(\d+)(?!\s*\))/gi`
(deepSQLAnalyzer.js line 204).  The greedy `(\d+)` backtracks against the
negative lookahead, so the longest digit prefix not followed by
`\s*\)` is captured. -/
def directNumHere (s : List Char) : Option (Nat × (List Char × List Char)) :=
  match fieldEqHere s with
  | none => none
  | some (field, rest) =>
    let d := runOf isDigitCh rest
    match descend rest d with
    | some k => some (s.length - rest.length + k, (field, rest.take k))
    | none => none
where
  lookaheadFails (t : List Char) : Bool := (t.drop (wsRun t)).head? = some ')'
  descend (rest : List Char) : Nat → Option Nat
    | 0 => none
    | k + 1 =>
      if !lookaheadFails (rest.drop (k + 1)) then some (k + 1) else descend rest k

/-- One match of `/(?:"?(\w+)"?)\s*=\s*(true|false)/gi`
(deepSQLAnalyzer.js line 223). -/
def directBoolHere (s : List Char) : Option (Nat × (List Char × List Char)) :=
  match fieldEqHere s with
  | none => none
  | some (field, rest) =>
    if headIs true "true".data rest then
      some (s.length - rest.length + 4, (field, rest.take 4))
    else if headIs true "false".data rest then
      some (s.length - rest.length + 5, (field, rest.take 5))
    else none

/-- One match of `/(?:"?(\w+)"?)\s+IS\s+NULL/gi` or the corresponding
`IS NOT NULL` pattern (deepSQLAnalyzer.js lines 237, 247; the latter has
no optional quotes in the source, `(\w+)\s+IS\s+NOT\s+NULL`). -/
def isNullHere (withQuotes : Bool) (negated : Bool) (s : List Char) :
    Option (Nat × List Char) :=
  let s0 := if withQuotes && s.head? = some '"' then s.tail else s
  let n := wordRun s0
  if n = 0 then none
  else
    let field := s0.take n
    let s1 := s0.drop n
    let w1 := wsRun s1
    if w1 = 0 then none
    else
      let s2 := s1.drop w1
      if headIs true "IS".data s2 then
        let s3 := s2.drop 2
        let w2 := wsRun s3
        if w2 = 0 then none
        else
          let s4 := s3.drop w2
          if negated then
            if headIs true "NOT".data s4 then
              let s5 := s4.drop 3
              let w3 := wsRun s5
              if w3 = 0 then none
              else if headIs true "NULL".data (s5.drop w3) then
                some (s.length - s5.length + w3 + 4, field)
              else none
            else none
          else
            if headIs true "NULL".data s4 then
              some (s.length - s4.length + 4, field)
            else none
      else none

/-- `extractDirectComparisons` (deepSQLAnalyzer.js lines 182-255). -/
def extractDirectComparisons (sql : List Char) : List SqlFilter :=
  let strs := (scanAll directStrHere (sql.length + 1) sql).filterMap
    (fun (f, v) =>
      if skipField f then none
      else some { type := "equal", field := ⟨f⟩, value := ⟨v⟩ })
  let nums := (scanAll directNumHere (sql.length + 1) sql).filterMap
    (fun (f, v) =>
      if skipField f then none
      else some { type := "equal", field := ⟨f⟩, value := ⟨v⟩ })
  let bools := (scanAll directBoolHere (sql.length + 1) sql).map
    (fun (f, v) => { type := "equal", field := ⟨f⟩, value := ⟨lowStr v⟩ })
  let nulls := (scanAll (isNullHere true false) (sql.length + 1) sql).map
    (fun f => { type := "is_null", field := (⟨f⟩ : String) })
  let notNulls := (scanAll (isNullHere false true) (sql.length + 1) sql).map
    (fun f => { type := "not_null", field := (⟨f⟩ : String) })
  strs ++ nums ++ bools ++ nulls ++ notNulls

/-- `normalizeFuncName` (deepSQLAnalyzer.js line 268). -/
def normalizeFuncName (name : List Char) : List Char := replaceChar '.' '_' name

/-- Function-name lookup of `extractFunctionComparisons`
(deepSQLAnalyzer.js lines 287-293): normalized name, its lowercase, then
the original name and its lowercase. -/
def lookupFunc (original : List Char) : Option String :=
  let norm := normalizeFuncName original
  match RelGen.lookupStr (⟨norm⟩ : String) functionMappings with
  | some u => some u
  | none =>
    match RelGen.lookupStr (⟨lowStr norm⟩ : String) functionMappings with
    | some u => some u
    | none =>
      match RelGen.lookupStr (⟨original⟩ : String) functionMappings with
      | some u => some u
      | none => RelGen.lookupStr (⟨lowStr original⟩ : String) functionMappings

/-- One match of `/(?:"?(\w+)"?)\s*=\s*([\w.]+)\s*\(\s*\)/gi`
(deepSQLAnalyzer.js line 263): `field = function()` with an empty
argument list.  Returns the full matched text with the captures. -/
def funcCmpHere1 (s : List Char) : Option (Nat × (List Char × List Char)) :=
  match fieldEqHere s with
  | none => none
  | some (field, rest) =>
    let m := runOf (fun c => isWordChar c || c = '.') rest
    if m = 0 then none
    else
      let fn := rest.take m
      let r1 := rest.drop m
      let r2 := r1.drop (wsRun r1)
      if r2.head? = some '(' then
        let r3 := r2.tail
        let r4 := r3.drop (wsRun r3)
        if r4.head? = some ')' then
          some (s.length - r4.length + 1, (field, fn))
        else none
      else none

/-- One match of `/([\w.]+)\s*\(\s*\)\s*=\s*(?:"?(\w+)"?)/gi`
(deepSQLAnalyzer.js line 264): `function() = field`. -/
def funcCmpHere2 (s : List Char) : Option (Nat × (List Char × List Char)) :=
  let m := runOf (fun c => isWordChar c || c = '.') s
  if m = 0 then none
  else
    let fn := s.take m
    let r1 := s.drop m
    let r2 := r1.drop (wsRun r1)
    if r2.head? = some '(' then
      let r3 := r2.tail
      let r4 := r3.drop (wsRun r3)
      if r4.head? = some ')' then
        let r5 := r4.tail
        let r6 := r5.drop (wsRun r5)
        if r6.head? = some '=' then
          let r7 := r6.tail
          let r8 := r7.drop (wsRun r7)
          let r9 := if r8.head? = some '"' then r8.tail else r8
          let n := wordRun r9
          if n = 0 then none
          else
            let field := r9.take n
            let r10 := r9.drop n
            let consumed := s.length - r10.length + (if r10.head? = some '"' then 1 else 0)
            some (consumed, (fn, field))
        else none
      else none
    else none

/-- One match of `/([\w.]+)\s*\(\s*\)\s*=\s*'([^']+)'/gi`
(deepSQLAnalyzer.js line 322): `function() = 'value'`. -/
def funcValHere (s : List Char) : Option (Nat × (List Char × List Char)) :=
  let m := runOf (fun c => isWordChar c || c = '.') s
  if m = 0 then none
  else
    let fn := s.take m
    let r1 := s.drop m
    let r2 := r1.drop (wsRun r1)
    if r2.head? = some '(' then
      let r3 := r2.tail
      let r4 := r3.drop (wsRun r3)
      if r4.head? = some ')' then
        let r5 := r4.tail
        let r6 := r5.drop (wsRun r5)
        if r6.head? = some '=' then
          let r7 := r6.tail
          let r8 := r7.drop (wsRun r7)
          if r8.head? = some '\'' then
            let cap := (r8.tail).takeWhile (fun c => c ≠ '\'')
            if !cap.isEmpty && ((r8.tail).drop cap.length).head? = some '\'' then
              some (s.length - r8.length + cap.length + 2, (fn, cap))
            else none
          else none
        else none
      else none
    else none

/-- The `= ANY` adjacency skip of `extractFunctionComparisons`
(deepSQLAnalyzer.js lines 302-304): the full matched text followed by one
of the four `= ANY` spellings occurs in the SQL. -/
def anySkip (sql matched : List Char) : Bool :=
  hasSub (matched ++ " = ANY".data) sql || hasSub (matched ++ "= ANY".data) sql ||
  hasSub (matched ++ " =ANY".data) sql || hasSub (matched ++ "=ANY".data) sql

/-- `extractFunctionComparisons` (deepSQLAnalyzer.js lines 260-339):
the two `field = function()` / `function() = field` passes followed by the
`function() = 'value'` role-equality pass. -/
def extractFunctionComparisons (sql : List Char) :
    List SqlFilter × List SqlCond :=
  let pass (ms : List (List Char × (List Char × List Char))) : List SqlFilter :=
    ms.filterMap (fun (matched, (field, fnOriginal)) =>
      match lookupFunc fnOriginal with
      | none => none
      | some userField =>
        if skipField field || field.contains '(' then none
        else if anySkip sql matched then none
        else
          some { type := ⟨"user_".data ++ userField.data⟩, field := ⟨field⟩,
                 userField := some userField })
  let m1 := (scanAll (fun s => (funcCmpHere1 s).map
    (fun (n, c) => (n, (s.take n, c)))) (sql.length + 1) sql)
  let m2 := (scanAll (fun s => (funcCmpHere2 s).map
    (fun (n, c) => (n, (s.take n, c)))) (sql.length + 1) sql)
  let f1 := pass (m1.map (fun (t, fc) => (t, (fc.1, fc.2))))
  let f2 := pass (m2.map (fun (t, fc) => (t, (fc.2, fc.1))))
  let roleConds := (scanAll funcValHere (sql.length + 1) sql).filterMap
    (fun (fn, v) =>
      match lookupFunc fn with
      | some u =>
        if u = "role" then
          some { type := "role_equal", role := ⟨v⟩,
                 javascript := some ⟨"user?.role === '".data ++ v ++ ['\'']⟩ }
        else none
      | none => none)
  (f1 ++ f2, roleConds)

/-- One match of
`/(\w+)\s*=\s*(?:\(?\s*current_setting\s*\(\s*'([^']+)'[^)]*\)\s*\)?)/gi`
(deepSQLAnalyzer.js line 347). -/
def sessionHere1 (s : List Char) : Option (Nat × (List Char × List Char)) :=
  let n := wordRun s
  if n = 0 then none
  else
    let field := s.take n
    let s1 := s.drop n
    let s2 := s1.drop (wsRun s1)
    if s2.head? = some '=' then
      let s3 := s2.tail
      let s4 := s3.drop (wsRun s3)
      let s5 := if s4.head? = some '(' then s4.tail else s4
      let s6 := s5.drop (wsRun s5)
      if headIs true "current_setting".data s6 then
        let s7 := s6.drop 15
        let s8 := s7.drop (wsRun s7)
        if s8.head? = some '(' then
          let s9 := s8.tail
          let s10 := s9.drop (wsRun s9)
          if s10.head? = some '\'' then
            let cap := (s10.tail).takeWhile (fun c => c ≠ '\'')
            if !cap.isEmpty && ((s10.tail).drop cap.length).head? = some '\'' then
              let s11 := (s10.tail).drop (cap.length + 1)
              let gap := s11.takeWhile (fun c => c ≠ ')')
              let s12 := s11.drop gap.length
              if s12.head? = some ')' then
                let s13 := s12.tail
                let s14 := s13.drop (wsRun s13)
                let s15 := if s14.head? = some ')' then s14.tail else s14
                some (s.length - s15.length, (field, cap))
              else none
            else none
          else none
        else none
      else none
    else none

/-- One match of `/current_setting\s*\(\s*'([^']+)'[^)]*\)\s*=\s*(\w+)/gi`
(deepSQLAnalyzer.js line 348). -/
def sessionHere2 (s : List Char) : Option (Nat × (List Char × List Char)) :=
  if headIs true "current_setting".data s then
    let s1 := s.drop 15
    let s2 := s1.drop (wsRun s1)
    if s2.head? = some '(' then
      let s3 := s2.tail
      let s4 := s3.drop (wsRun s3)
      if s4.head? = some '\'' then
        let cap := (s4.tail).takeWhile (fun c => c ≠ '\'')
        if !cap.isEmpty && ((s4.tail).drop cap.length).head? = some '\'' then
          let s5 := (s4.tail).drop (cap.length + 1)
          let gap := s5.takeWhile (fun c => c ≠ ')')
          let s6 := s5.drop gap.length
          if s6.head? = some ')' then
            let s7 := s6.tail
            let s8 := s7.drop (wsRun s7)
            if s8.head? = some '=' then
              let s9 := s8.tail
              let s10 := s9.drop (wsRun s9)
              let n := wordRun s10
              if n = 0 then none
              else some (s.length - s10.length + n, (cap, s10.take n))
            else none
          else none
        else none
      else none
    else none
  else none

/-- `extractSessionVariableComparisons` (deepSQLAnalyzer.js lines 344-386). -/
def extractSessionVariableComparisons (sql : List Char) : List SqlFilter :=
  let handle (field setting : List Char) : Option SqlFilter :=
    match RelGen.lookupStr (⟨setting⟩ : String) sessionMappings with
    | none => none
    | some userField =>
      if field.contains '(' then none
      else
        some { type := ⟨"session_".data ++ userField.data⟩, field := ⟨field⟩,
               userField := some userField }
  let p1 := (scanAll sessionHere1 (sql.length + 1) sql).filterMap
    (fun (f, c) => handle f c)
  let p2 := (scanAll sessionHere2 (sql.length + 1) sql).filterMap
    (fun (c, f) => handle f c)
  p1 ++ p2

/-- Restricted JavaScript `isNaN(string)` used for value quoting
(deepSQLAnalyzer.js line 421, prismaFilterBuilder.js lines 56, 316):
`true` when the trimmed text is not a plain decimal numeral (the inputs
exercised are identifiers and decimal literals; empty text coerces to 0
and is not NaN). -/
def jsIsNaN (s : String) : Bool :=
  let t := trimWs s.data
  if t.isEmpty then false
  else
    let t1 := if t.head? = some '-' || t.head? = some '+' then t.tail else t
    let d1 := runOf isDigitCh t1
    let rest := t1.drop d1
    let frac :=
      if rest.head? = some '.' then
        let d2 := runOf isDigitCh rest.tail
        if (rest.tail.drop d2).isEmpty && (0 < d1 || 0 < d2) then true else false
      else rest.isEmpty && 0 < d1
    !frac

/-- One match of `/(\w+)\s+IN\s*\(([^)]+)\)/gi`
(deepSQLAnalyzer.js line 393). -/
def inClauseHere (s : List Char) : Option (Nat × (List Char × List Char)) :=
  let n := wordRun s
  if n = 0 then none
  else
    let field := s.take n
    let s1 := s.drop n
    let w := wsRun s1
    if w = 0 then none
    else
      let s2 := s1.drop w
      if headIs true "IN".data s2 then
        let s3 := s2.drop 2
        let s4 := s3.drop (wsRun s3)
        if s4.head? = some '(' then
          let cap := (s4.tail).takeWhile (fun c => c ≠ ')')
          if !cap.isEmpty && ((s4.tail).drop cap.length).head? = some ')' then
            some (s.length - s4.length + cap.length + 2, (field, cap))
          else none
        else none
      else none

/-- `extractInClauses` (deepSQLAnalyzer.js lines 391-432). -/
def extractInClauses (sql : List Char) : List SqlFilter × List SqlCond :=
  let ms := scanAll inClauseHere (sql.length + 1) sql
  ms.foldr (fun (field, values) (acc : List SqlFilter × List SqlCond) =>
    if skipField field then acc
    else if hasSub "select".data (lowStr values) then
      (acc.1,
        { type := "in_subquery", field := ⟨field⟩, subquery := ⟨values⟩ } :: acc.2)
    else
      let valueList := (splitOnComma values).map
        (fun v => (trimWs v).filter (fun c => c ≠ '\''))
      let quoted := valueList.map (fun v =>
        if jsIsNaN ⟨v⟩ && v ≠ "true".data && v ≠ "false".data then
          '\'' :: v ++ ['\'']
        else v)
      ({ type := "in", field := ⟨field⟩,
         values := quoted.map (fun v => (⟨v⟩ : String)) } :: acc.1, acc.2)) ([], [])

/-- One match of `/EXISTS\s*\(([^)]+(?:\([^)]*\)[^)]*)*)\)/gi`
(deepSQLAnalyzer.js line 438).  The greedy `[^)]+` runs to the first
closing parenthesis and the optional groups then find nothing to extend,
so the capture is the text up to the first `)`. -/
def existsCapHere (s : List Char) : Option (Nat × List Char) :=
  if headIs true "EXISTS".data s then
    let s1 := s.drop 6
    let s2 := s1.drop (wsRun s1)
    if s2.head? = some '(' then
      let cap := (s2.tail).takeWhile (fun c => c ≠ ')')
      if !cap.isEmpty && ((s2.tail).drop cap.length).head? = some ')' then
        some (s.length - s2.length + cap.length + 2, cap)
      else none
    else none
  else none

/-- The `/WHERE\s+(.+)/i` capture (deepSQLAnalyzer.js line 446). -/
def whereCapture (s : List Char) : Option (List Char) :=
  scanStarts (fun t =>
    if headIs true "WHERE".data t then
      let t1 := t.drop 5
      let w := wsRun t1
      if w = 0 then none
      else
        let rest := t1.drop w
        if rest.isEmpty then none else some rest
    else none) s

/-- `extractExistsSubqueries` (deepSQLAnalyzer.js lines 437-460). -/
def extractExistsSubqueries (sql : List Char) : List SqlCond :=
  (scanAll existsCapHere (sql.length + 1) sql).filterMap (fun subquery =>
    match AutoRLS.tableMatch subquery with
    | none => none
    | some table =>
      some { type := "exists", table := ⟨table⟩,
             condition := ⟨(whereCapture subquery).getD []⟩ })

/-- One branch match of `/WHEN\s+([^THEN]+)\s+THEN\s+([^WHEN|ELSE|END]+)/gi`
inside `extractCaseWhenConditions` (deepSQLAnalyzer.js line 473).  The
character classes exclude the letters of the keywords, so `[^THEN]+` stops
at the first of `T`,`H`,`E`,`N` and `[^WHEN|ELSE|END]+` at the first of
`W`,`H`,`E`,`N`,`|`,`L`,`S`,`D` (case-insensitively); the trailing
whitespace is backtracked out of the first capture. -/
def caseBranchHere (s : List Char) : Option (Nat × (List Char × List Char)) :=
  if headIs true "WHEN".data s then
    let s1 := s.drop 4
    let w1 := wsRun s1
    if w1 = 0 then none
    else
      let s2 := s1.drop w1
      let capLen := runOf (fun c => !("THENthen".data.contains c)) s2
      if capLen = 0 then none
      else
        let pre := s2.take capLen
        let t := min (wsRun pre.reverse) (pre.length - 1)
        if t = 0 then none
        else
          let cap1 := pre.take (pre.length - t)
          let s3 := s2.drop capLen
          if headIs true "THEN".data s3 then
            let s4 := s3.drop 4
            let w2 := wsRun s4
            if w2 = 0 then none
            else
              let s5 := s4.drop w2
              let cap2Len := runOf (fun c => !("WHENwhen|ELSelse".data.contains c ||
                c = 'D' || c = 'd')) s5
              if cap2Len = 0 then none
              else
                some (s.length - s5.length + cap2Len, (cap1, s5.take cap2Len))
          else none
  else none

/-- `extractCaseWhenConditions` (deepSQLAnalyzer.js lines 465-494): only
searched `CASE WHEN` expressions are matched; the inner loop re-collects
the `(condition, result)` pairs of the outer match, which is bounded by
the branch pattern itself.  The outer `case_when` condition keeps no
payload the filter builder reads, so the embedded version records one
`case_when` condition per maximal searched-`CASE` construct found. -/
def extractCaseWhenConditions (sql : List Char) : List SqlCond :=
  (scanAll (fun s =>
    if headIs true "CASE".data s then
      let s1 := s.drop 4
      let w := wsRun s1
      if w = 0 then none
      else
        match caseBranchHere (s1.drop w) with
        | some (n, _) => some (4 + w + n, ())
        | none => none
    else none) (sql.length + 1) sql).map
    (fun _ => { type := "case_when" })

/-- One match of
`/\(?([\w.]+)\s*\(\s*\)\)?\s*=\s*ANY\s*\(+\s*(?:ARRAY\s*)?\[([^\]]+)\]/gi`
(deepSQLAnalyzer.js line 502). -/
def roleAnyHere (s : List Char) : Option (Nat × (List Char × List Char)) :=
  let s0 := if s.head? = some '(' then s.tail else s
  let m := runOf (fun c => isWordChar c || c = '.') s0
  if m = 0 then none
  else
    let fn := s0.take m
    let s1 := s0.drop m
    let s2 := s1.drop (wsRun s1)
    if s2.head? = some '(' then
      let s3 := s2.tail
      let s4 := s3.drop (wsRun s3)
      if s4.head? = some ')' then
        let s5 := s4.tail
        let s6 := if s5.head? = some ')' then s5.tail else s5
        let s7 := s6.drop (wsRun s6)
        if s7.head? = some '=' then
          let s8 := s7.tail
          let s9 := s8.drop (wsRun s8)
          if headIs true "ANY".data s9 then
            let s10 := s9.drop 3
            let s11 := s10.drop (wsRun s10)
            let p := runOf (fun c => c = '(') s11
            if p = 0 then none
            else
              let s12 := s11.drop p
              let s13 := s12.drop (wsRun s12)
              let s14 :=
                if headIs true "ARRAY".data s13 then
                  let t := s13.drop 5
                  t.drop (wsRun t)
                else s13
              if s14.head? = some '[' then
                let cap := (s14.tail).takeWhile (fun c => c ≠ ']')
                if !cap.isEmpty && ((s14.tail).drop cap.length).head? = some ']' then
                  some (s.length - s14.length + cap.length + 2, (fn, cap))
                else none
              else none
          else none
        else none
      else none
    else none

/-- `extractRoleChecks` (deepSQLAnalyzer.js lines 499-524). -/
def extractRoleChecks (sql : List Char) : List SqlCond :=
  (scanAll roleAnyHere (sql.length + 1) sql).filterMap (fun (fn, values) =>
    match lookupFunc fn with
    | some u =>
      if u = "role" then
        let roles := (splitOnComma values).map
          (fun r => (trimWs r).filter (fun c => c ≠ '\''))
        some { type := "role_any",
               roles := roles.map (fun r => (⟨r⟩ : String)),
               javascript := some ⟨'[' :: joinWith ", ".data
                 (roles.map (fun r => '\'' :: r ++ ['\''])) ++
                 "].includes(user?.role)".data⟩ }
      else none
    | none => none)

/-- One match of
`/(\w+)\s+IN\s*\(\s*SELECT\s+\w+\s+FROM\s+(\w+)\s+WHERE\s+(\w+)=/gi`
(deepSQLAnalyzer.js line 533). -/
def joinHere1 (s : List Char) : Option (Nat × (List Char × List Char)) :=
  let n := wordRun s
  if n = 0 then none
  else
    let field := s.take n
    let s1 := s.drop n
    let w0 := wsRun s1
    if w0 = 0 then none
    else
      let s2 := s1.drop w0
      if headIs true "IN".data s2 then
        let s3 := s2.drop 2
        let s4 := s3.drop (wsRun s3)
        if s4.head? = some '(' then
          let s5 := s4.tail
          let s6 := s5.drop (wsRun s5)
          if headIs true "SELECT".data s6 then
            let s7 := s6.drop 6
            let w1 := wsRun s7
            if w1 = 0 then none
            else
              let s8 := s7.drop w1
              let c1 := wordRun s8
              if c1 = 0 then none
              else
                let s9 := s8.drop c1
                let w2 := wsRun s9
                if w2 = 0 then none
                else
                  let s10 := s9.drop w2
                  if headIs true "FROM".data s10 then
                    let s11 := s10.drop 4
                    let w3 := wsRun s11
                    if w3 = 0 then none
                    else
                      let s12 := s11.drop w3
                      let c2 := wordRun s12
                      if c2 = 0 then none
                      else
                        let table := s12.take c2
                        let s13 := s12.drop c2
                        let w4 := wsRun s13
                        if w4 = 0 then none
                        else
                          let s14 := s13.drop w4
                          if headIs true "WHERE".data s14 then
                            let s15 := s14.drop 5
                            let w5 := wsRun s15
                            if w5 = 0 then none
                            else
                              let s16 := s15.drop w5
                              let c3 := wordRun s16
                              if c3 = 0 then none
                              else if (s16.drop c3).head? = some '=' then
                                some (s.length - s16.length + c3 + 1, (field, table))
                              else none
                          else none
                  else none
          else none
        else none
      else none

/-- `extractComplexJoins` (deepSQLAnalyzer.js lines 529-551).  The second
`_members?` pattern requires a table name ending in `_member`/`_members`;
it pushes `match[2]` as the table, which for that pattern is the second
member of the dotted column. -/
def extractComplexJoins (sql : List Char) : List SqlCond :=
  let p1 := (scanAll joinHere1 (sql.length + 1) sql).map (fun (field, table) =>
    { type := "relation", table := (⟨table⟩ : String), field := (⟨field⟩ : String) })
  let p2 := (scanAll joinHere2 (sql.length + 1) sql).map (fun (field, second) =>
    { type := "relation", table := (⟨second⟩ : String), field := (⟨field⟩ : String) })
  p1 ++ p2
where
  /-- One match of
  `/(\w+)\.(\w+)\s+IN\s*\(\s*SELECT\s+\w+\s+FROM\s+(\w+_members?)\s+WHERE/gi`
  (deepSQLAnalyzer.js line 535). -/
  joinHere2 (s : List Char) : Option (Nat × (List Char × List Char)) :=
    let n := wordRun s
    if n = 0 then none
    else
      let first := s.take n
      let s1 := s.drop n
      if s1.head? = some '.' then
        let s2 := s1.tail
        let m := wordRun s2
        if m = 0 then none
        else
          let second := s2.take m
          let s3 := s2.drop m
          let w0 := wsRun s3
          if w0 = 0 then none
          else
            let s4 := s3.drop w0
            if headIs true "IN".data s4 then
              let s5 := s4.drop 2
              let s6 := s5.drop (wsRun s5)
              if s6.head? = some '(' then
                let s7 := s6.tail
                let s8 := s7.drop (wsRun s7)
                if headIs true "SELECT".data s8 then
                  let s9 := s8.drop 6
                  let w1 := wsRun s9
                  if w1 = 0 then none
                  else
                    let s10 := s9.drop w1
                    let c1 := wordRun s10
                    if c1 = 0 then none
                    else
                      let s11 := s10.drop c1
                      let w2 := wsRun s11
                      if w2 = 0 then none
                      else
                        let s12 := s11.drop w2
                        if headIs true "FROM".data s12 then
                          let s13 := s12.drop 4
                          let w3 := wsRun s13
                          if w3 = 0 then none
                          else
                            let s14 := s13.drop w3
                            let c2 := wordRun s14
                            if c2 = 0 then none
                            else
                              let table := s14.take c2
                              if (8 < table.length && headIs true "_members".data
                                  (table.drop (table.length - 8))) ||
                                 (7 < table.length && headIs true "_member".data
                                  (table.drop (table.length - 7))) then
                                let s15 := s14.drop c2
                                let w4 := wsRun s15
                                if w4 = 0 then none
                                else if headIs true "WHERE".data (s15.drop w4) then
                                  some (s.length - s15.length + w4 + 5,
                                    (first, second))
                                else none
                              else none
                        else none
                else none
              else none
            else none
      else none

/-- `analyzeSQLForFilters` (deepSQLAnalyzer.js lines 73-105): normalize,
strip EXISTS subqueries for the comparison passes, then the extractors in
source order. -/
def analyzeSQLForFilters (sql : String) : Analysis :=
  if (trimWs sql.data).isEmpty then {}
  else
    let n := normalizeSql sql.data
    let noExists := removeExistsSubqueries (n.length + 1) n
    let direct := extractDirectComparisons noExists
    let (funcFilters, roleEqConds) := extractFunctionComparisons noExists
    let sessionFilters := extractSessionVariableComparisons noExists
    let (inFilters, inConds) := extractInClauses noExists
    let existsConds := extractExistsSubqueries n
    let caseConds := extractCaseWhenConditions n
    let roleAnyConds := extractRoleChecks n
    let joinConds := extractComplexJoins n
    { filters := direct ++ funcFilters ++ sessionFilters ++ inFilters
      conditions := roleEqConds ++ inConds ++ existsConds ++ caseConds ++
        roleAnyConds ++ joinConds }

end Rapidd.Deep

namespace Rapidd.PFB

/-!  src/src/parsers/prismaFilterBuilder.js — `PrismaFilterBuilder`  -/

open Rapidd

/-- The constructor state of `PrismaFilterBuilder` (lines 6-21): the parsed
models and the relationships map (relationships.json shape). -/
structure Builder where
  models : List (String × RelGen.ModelInfo)
  relationships : List (String × List (String × RelGen.RelationInfo))

/-- The user-model search of the constructor (lines 12-20): first model
whose lowercased name is `user` or `users`. -/
def userModel (b : Builder) : Option RelGen.ModelInfo :=
  (b.models.find? (fun m =>
    RelGen.jsLower m.1 = "user" || RelGen.jsLower m.1 = "users")).map (·.2)

/-- `convertToUserFieldPath` (prismaFilterBuilder.js lines 201-237). -/
def convertToUserFieldPath (b : Builder) (userField userVar : String) : String :=
  if userField = "id" then userVar ++ "?.id"
  else
    let direct :=
      match userModel b with
      | some um =>
        match RelGen.lookupStr userField um.fields with
        | some f => !f.isRelation
        | none => false
      | none => false
    if direct then userVar ++ "?." ++ userField
    else if strEnds "_id" userField then
      userVar ++ "." ++ strDropRight userField 3 ++ "?.id"
    else userVar ++ "?." ++ userField

/-- `buildRelationFilter` (prismaFilterBuilder.js lines 247-272): `some`
when the related model is missing, when the relation carries a junction
field list (`fields.length > 1`), when the relation name ends in `s`, or
when any `fields` member is present; direct nested equality otherwise. -/
def buildRelationFilter (b : Builder) (relationName : String)
    (relationInfo : RelGen.RelationInfo) (fieldName value : String) : String :=
  let someForm := "\x7b " ++ relationName ++ ": \x7b some: \x7b " ++ fieldName ++
    ": " ++ value ++ " \x7d \x7d \x7d"
  match RelGen.lookupStr relationInfo.object b.models with
  | none => someForm
  | some _ =>
    let isJunctionTable :=
      match relationInfo.fields with
      | some fs => decide (1 < fs.length)
      | none => false
    if isJunctionTable then someForm
    else if strEnds "s" relationName || relationInfo.fields.isSome then someForm
    else "\x7b " ++ relationName ++ ": \x7b " ++ fieldName ++ ": " ++ value ++ " \x7d \x7d"

/-- `inferRelationType` (prismaFilterBuilder.js lines 280-285): the
declared cardinality of a relation, from the model's relation metadata. -/
def inferRelationType (modelInfo : RelGen.ModelInfo) (relationName : String) : String :=
  match modelInfo.relations.find? (fun r => r.name = relationName) with
  | some r => if r.isArray then "many" else "one"
  | none => "one"

/-- The first junction-relation pass of `buildUserFieldFilter` /
`buildUserFieldJavaScript` (lines 146-165, 382-394): first relation whose
related model exists, whose `fields` has more than one member, and whose
`fields` contains the field. -/
def junctionFind (b : Builder) (rels : List (String × RelGen.RelationInfo))
    (fieldName : String) : Option (String × RelGen.RelationInfo) :=
  rels.find? (fun ri =>
    (RelGen.lookupStr ri.2.object b.models).isSome &&
      (match ri.2.fields with
       | some fs => decide (1 < fs.length) && fs.contains fieldName
       | none => false))

/-- The second pass (lines 168-183, 397-414): first relation whose related
model exists and declares the field as a non-relation field. -/
def regularFind (b : Builder) (rels : List (String × RelGen.RelationInfo))
    (fieldName : String) : Option (String × RelGen.RelationInfo) :=
  rels.find? (fun ri =>
    match RelGen.lookupStr ri.2.object b.models with
    | none => false
    | some related =>
      match RelGen.lookupStr fieldName related.fields with
      | some f => !f.isRelation
      | none => false)

/-- `buildUserFieldFilter` (prismaFilterBuilder.js lines 128-188).  When
the field resolves nowhere — not on the model, not through a junction,
not on any related model — the final fallback (lines 185-187) still
returns a direct-field comparison. -/
def buildUserFieldFilter (b : Builder) (modelName fieldName userField userVar : String) :
    Option String :=
  match RelGen.lookupStr modelName b.models with
  | none => none
  | some modelInfo =>
    let directOk :=
      match RelGen.lookupStr fieldName modelInfo.fields with
      | some f => !f.isRelation
      | none => false
    if directOk then
      some ("\x7b " ++ fieldName ++ ": " ++ convertToUserFieldPath b userField userVar ++ " \x7d")
    else
      let modelRelations := (RelGen.lookupStr modelName b.relationships).getD []
      match junctionFind b modelRelations fieldName with
      | some (rn, ri) =>
        some (buildRelationFilter b rn ri fieldName (convertToUserFieldPath b userField userVar))
      | none =>
        match regularFind b modelRelations fieldName with
        | some (rn, ri) =>
          some (buildRelationFilter b rn ri fieldName (convertToUserFieldPath b userField userVar))
        | none =>
          some ("\x7b " ++ fieldName ++ ": " ++ convertToUserFieldPath b userField userVar ++ " \x7d")

/-- `filter.type.replace(/^(user_|session_)/, '')` (lines 41, 301). -/
def stripUserSessionPfx (t : String) : String :=
  if strStarts "user_" t then strDrop t 5
  else if strStarts "session_" t then strDrop t 8
  else t

/-- The `filter.userField || filter.type.replace(...)` default (falsy
empty string included). -/
def filterUserField (f : Deep.SqlFilter) : String :=
  match f.userField with
  | some u => if u = "" then stripUserSessionPfx f.type else u
  | none => stripUserSessionPfx f.type

/-- JavaScript `[...new Set(list)]`: first occurrences, in order. -/
def jsSetDedupGo (seen : List String) : List String → List String
  | [] => []
  | x :: xs =>
    if seen.contains x then jsSetDedupGo seen xs
    else x :: jsSetDedupGo (x :: seen) xs

def jsSetDedup (l : List String) : List String := jsSetDedupGo [] l

/-- The filter-collection loop of `buildFilter`
(prismaFilterBuilder.js lines 35-75). -/
def collectFilterStrs (b : Builder) (modelName userVar : String) :
    List Deep.SqlFilter → List String
  | [] => []
  | f :: rest =>
    let tail := collectFilterStrs b modelName userVar rest
    if strStarts "user_" f.type || strStarts "session_" f.type then
      let userField := filterUserField f
      if f.type = "user_role" || userField = "role" then tail
      else
        match buildUserFieldFilter b modelName f.field userField userVar with
        | some pf => pf :: tail
        | none => tail
    else if f.type = "equal" then
      let value :=
        if Deep.jsIsNaN f.value && f.value ≠ "true" && f.value ≠ "false" then
          "'" ++ f.value ++ "'"
        else f.value
      ("\x7b " ++ f.field ++ ": " ++ value ++ " \x7d") :: tail
    else if f.type = "not_equal" then
      ("\x7b " ++ f.field ++ ": \x7b not: '" ++ f.value ++ "' \x7d \x7d") :: tail
    else if f.type = "is_null" then
      ("\x7b " ++ f.field ++ ": null \x7d") :: tail
    else if f.type = "not_null" then
      ("\x7b " ++ f.field ++ ": \x7b not: null \x7d \x7d") :: tail
    else if f.type = "in" then
      ("\x7b " ++ f.field ++ ": \x7b in: [" ++ strJoin ", " f.values ++
        "] \x7d \x7d") :: tail
    else tail

/-- The role checks of the conditional-filter branch
(prismaFilterBuilder.js lines 86-93). -/
def roleCheckStrs (conds : List Deep.SqlCond) (userVar : String) : List String :=
  (conds.filter (fun c => c.type = "role_any" || c.type = "role_equal")).filterMap
    (fun c =>
      if c.type = "role_any" then
        some ("[" ++ strJoin ", " (c.roles.map (fun r => "'" ++ r ++ "'")) ++
          "].includes(" ++ userVar ++ "?.role)")
      else if c.type = "role_equal" then
        some (userVar ++ "?.role === '" ++ c.role ++ "'")
      else none)

/-- `buildFilter` (prismaFilterBuilder.js lines 30-118).  With role
conditions, OR logic in the SQL and a non-empty data filter it emits the
conditional `if (roleCheck) { return {}; } return dataFilter;` shape. -/
def buildFilter (b : Builder) (modelName : String) (analysis : Deep.Analysis)
    (userVar : String) : String :=
  if analysis.filters.isEmpty then "\x7b\x7d"
  else
    let filters := collectFilterStrs b modelName userVar analysis.filters
    let hasRoleConditions := analysis.conditions.any
      (fun c => c.type = "role_any" || c.type = "role_equal")
    let hasOrLogic := hasSub " OR ".data analysis.sql.data
    if hasRoleConditions && hasOrLogic && !filters.isEmpty then
      let roleChecks := roleCheckStrs analysis.conditions userVar
      let roleCheck :=
        if 1 < roleChecks.length then "(" ++ strJoin " || " roleChecks ++ ")"
        else roleChecks.headD ""
      let dataFilter :=
        if filters.length = 1 then filters.headD ""
        else "\x7b AND: [" ++ strJoin ", " filters ++ "] \x7d"
      "if (" ++ roleCheck ++ ") \x7b return \x7b\x7d; \x7d return " ++ dataFilter ++ ";"
    else if filters.isEmpty then "\x7b\x7d"
    else
      let uniqueFilters := jsSetDedup filters
      if uniqueFilters.length = 1 then uniqueFilters.headD ""
      else if hasOrLogic then
        "\x7b OR: [" ++ strJoin ", " uniqueFilters ++ "] \x7d"
      else "\x7b AND: [" ++ strJoin ", " uniqueFilters ++ "] \x7d"

/-- `buildUserFieldJavaScript` (prismaFilterBuilder.js lines 365-419). -/
def buildUserFieldJavaScript (b : Builder)
    (modelName fieldName userField dataVar userVar : String) : Option String :=
  match RelGen.lookupStr modelName b.models with
  | none => none
  | some modelInfo =>
    let directOk :=
      match RelGen.lookupStr fieldName modelInfo.fields with
      | some f => !f.isRelation
      | none => false
    let path := convertToUserFieldPath b userField userVar
    if directOk then
      some (dataVar ++ "?." ++ fieldName ++ " === " ++ path)
    else
      let modelRelations := (RelGen.lookupStr modelName b.relationships).getD []
      match junctionFind b modelRelations fieldName with
      | some (rn, _) =>
        some (dataVar ++ "?." ++ rn ++ "?.find(item => item." ++ fieldName ++
          " === " ++ path ++ ")")
      | none =>
        match regularFind b modelRelations fieldName with
        | some (rn, ri) =>
          if strEnds "s" rn ||
              (match ri.fields with
               | some fs => decide (1 < fs.length)
               | none => false) then
            some (dataVar ++ "?." ++ rn ++ "?.find(item => item." ++ fieldName ++
              " === " ++ path ++ ")")
          else
            some (dataVar ++ "?." ++ rn ++ "?." ++ fieldName ++ " === " ++ path)
        | none =>
          some (dataVar ++ "?." ++ fieldName ++ " === " ++ path)

/-- The condition-collection loop of `buildJavaScriptCondition`
(prismaFilterBuilder.js lines 299-323); only `equal` direct filters are
rendered in the JavaScript backend. -/
def collectJsConditions (b : Builder) (modelName dataVar userVar : String) :
    List Deep.SqlFilter → List String
  | [] => []
  | f :: rest =>
    let tail := collectJsConditions b modelName dataVar userVar rest
    if strStarts "user_" f.type || strStarts "session_" f.type then
      let userField := filterUserField f
      if f.type = "user_role" || userField = "role" then tail
      else
        match buildUserFieldJavaScript b modelName f.field userField dataVar userVar with
        | some c => c :: tail
        | none => tail
    else if f.type = "equal" then
      let value :=
        if Deep.jsIsNaN f.value && f.value ≠ "true" && f.value ≠ "false" then
          "'" ++ f.value ++ "'"
        else f.value
      (dataVar ++ "?." ++ f.field ++ " === " ++ value) :: tail
    else tail

/-- `buildJavaScriptCondition` (prismaFilterBuilder.js lines 295-354). -/
def buildJavaScriptCondition (b : Builder) (modelName : String)
    (analysis : Deep.Analysis) (dataVar userVar : String) : String :=
  let conditions := collectJsConditions b modelName dataVar userVar analysis.filters
  let condConditions := analysis.conditions.filterMap (fun c =>
    match c.javascript with
    | some js =>
      some (⟨replaceSub "user".data userVar.data (js.data.length + 1) js.data⟩ : String)
    | none =>
      if c.type = "role_any" then
        some ("[" ++ strJoin ", " (c.roles.map (fun r => "'" ++ r ++ "'")) ++
          "].includes(" ++ userVar ++ "?.role)")
      else if c.type = "role_equal" then
        some (userVar ++ "?.role === '" ++ c.role ++ "'")
      else none)
  let all := conditions ++ condConditions
  if all.isEmpty then "true"
  else
    let uniq := jsSetDedup all
    if uniq.length = 1 then uniq.headD ""
    else if hasSub " OR ".data analysis.sql.data then strJoin " || " uniq
    else "(" ++ strJoin " && " uniq ++ ")"

/-- `convertToPrismaFilter` of `createEnhancedConverter` (part_009 lines
97-107), on the model-aware branch (a model name is given and models are
known, as in `generateFilter` of part_002): deep analysis, the raw SQL
attached for OR detection, then `buildFilter`. -/
def enhancedConvertToPrismaFilter (b : Builder) (modelName : String) (sql : String) :
    String :=
  if (trimWs sql.data).isEmpty then "\x7b\x7d"
  else buildFilter b modelName { Deep.analyzeSQLForFilters sql with sql := sql } "user"

/-- `convertToJavaScript` of `createEnhancedConverter` (part_009 lines
15-27), on the model-aware branch: deep analysis, the raw SQL attached,
then `buildJavaScriptCondition`. -/
def enhancedConvertToJavaScript (b : Builder) (modelName : String) (sql : String) :
    String :=
  if (trimWs sql.data).isEmpty then "true"
  else
    buildJavaScriptCondition b modelName
      { Deep.analyzeSQLForFilters sql with sql := sql } "data" "user"

/-- A two-model schema with `Post(id, owner_id)` and `User(id, role)` and
no relations, matching the spec's `Post` example. -/
def postModels : List (String × RelGen.ModelInfo) :=
  [("Post", { fields := [("id", {}), ("owner_id", {})] }),
   ("User", { fields := [("id", {}), ("role", {})] })]

def postBuilder : Builder := ⟨postModels, [("Post", []), ("User", [])]⟩

end Rapidd.PFB

namespace Rapidd.Fixtures

/-!  Concrete schemas used to evaluate the embedded pipeline.  -/

open Rapidd

/-- A `Course` model declaring a to-many relation `staff` to `Teacher`
(`isArray := true` in the parsed metadata). -/
def courseModelInfo : RelGen.ModelInfo :=
  { fields := [("id", {})]
    relations := [{ name := "staff", type := "Teacher", isArray := true }] }

def courseModels : List (String × RelGen.ModelInfo) :=
  [("Course", courseModelInfo),
   ("Teacher", { fields := [("id", {}), ("teacher_id", {})] }),
   ("User", { fields := [("id", {})] })]

def courseBuilder : PFB.Builder :=
  ⟨courseModels, [("Course", [("staff", { object := "Teacher" })])]⟩

/-- A model whose single relation targets a model missing from the map. -/
def ghostModels : List (String × RelGen.ModelInfo) :=
  [("Article",
    { fields := [("id", {})]
      relations := [{ name := "phantom", type := "Ghost", isArray := true }] })]

end Rapidd.Fixtures

namespace Rapidd.RelGen

theorem indexOf_cons_ne {a k : String} (t : List String) (h : a ≠ k) :
    (a :: t).indexOf? k = (t.indexOf? k).map Nat.succ := by
  rw [List.indexOf?_cons, if_neg]
  simp [h]

theorem indexOf_cons_self (k : String) (t : List String) :
    (k :: t).indexOf? k = some 0 := by
  rw [List.indexOf?_cons, if_pos]
  exact beq_self_eq_true k

theorem indexOf_zero_head {k : String} {l : List String}
    (h : l.indexOf? k = some 0) : ∃ t, l = k :: t := by
  cases l with
  | nil => simp at h
  | cons a t =>
    by_cases hk : a = k
    · exact ⟨t, by rw [hk]⟩
    · exfalso
      rw [indexOf_cons_ne t hk] at h
      cases h' : t.indexOf? k with
      | none => rw [h'] at h; simp at h
      | some n => rw [h'] at h; simp at h

theorem indexOf_mem_of_some {k : String} {l : List String} {i : Nat}
    (h : l.indexOf? k = some i) : k ∈ l := by
  induction l generalizing i with
  | nil => simp at h
  | cons a t ih =>
    by_cases hk : a = k
    · simp [hk]
    · rw [indexOf_cons_ne t hk] at h
      cases h' : t.indexOf? k with
      | none => rw [h'] at h; simp at h
      | some n => exact List.mem_cons_of_mem a (ih h')

theorem indexOf_none_not_mem {k : String} {l : List String}
    (h : l.indexOf? k = none) : k ∉ l := by
  intro hmem
  rw [List.indexOf?_eq_none_iff] at h
  exact (h k hmem) (beq_self_eq_true k)

/-- The reordering always produces "current model's key first, remaining
members in their original relative order" whenever the key occurs, and the
unchanged list otherwise. -/
theorem reorderFieldsForModel_eq (fields : List String) (m : String) :
    reorderFieldsForModel fields m =
      (if (jsLower m ++ "_id") ∈ fields then
        (jsLower m ++ "_id") :: fields.erase (jsLower m ++ "_id")
      else fields) := by
  cases h : fields.indexOf? (jsLower m ++ "_id") with
  | none =>
    have hnm := indexOf_none_not_mem h
    simp [reorderFieldsForModel, h, hnm]
  | some i =>
    have hmem := indexOf_mem_of_some h
    by_cases hi : 0 < i
    · simp [reorderFieldsForModel, h, hi, hmem]
    · have hi0 : i = 0 := by omega
      subst hi0
      obtain ⟨t, ht⟩ := indexOf_zero_head h
      subst ht
      simp [reorderFieldsForModel, h, List.erase_cons_head]

end Rapidd.RelGen

namespace Rapidd

/-- C4: for every junction composite key containing the current entity's
own foreign key (`<entity>_id`, lowercased), `reorderFieldsForModel` moves
that key to the front while preserving the relative order of the remaining
members, and returns the list unchanged when the key is absent; in
particular the composite key `(course_id, teacher_id)` resolved from
entity `Teacher` becomes `(teacher_id, course_id)`. -/
theorem c4_reorder_composite_key :
    (∀ (fields : List String) (m : String),
      RelGen.reorderFieldsForModel fields m =
        if (RelGen.jsLower m ++ "_id") ∈ fields then
          (RelGen.jsLower m ++ "_id") :: fields.erase (RelGen.jsLower m ++ "_id")
        else fields) ∧
    RelGen.reorderFieldsForModel ["course_id", "teacher_id"] "Teacher" =
      ["teacher_id", "course_id"] := by
  refine ⟨RelGen.reorderFieldsForModel_eq, by decide⟩

/-- C8 (the code evaluated at the failing input): compiling
`CASE role WHEN 'admin' THEN true WHEN 'guest' THEN false ELSE
(owner_id = current_user_id()) END` yields the unordered disjunction
`(role === 'admin' || data?.owner_id === user?.user_id)`; the
`WHEN 'guest' THEN false` branch is dropped entirely (the output does not
even mention `guest`), so a guest actor matching the ELSE data condition
is granted access although the CASE yields false for guests. -/
theorem c8_case_false_branch_dropped :
    AutoRLS.autoConvertToJavaScript
      "CASE role WHEN 'admin' THEN true WHEN 'guest' THEN false ELSE (owner_id = current_user_id()) END" =
      "(role === 'admin' || data?.owner_id === user?.user_id)" ∧
    hasSub "guest".data (AutoRLS.autoConvertToJavaScript
      "CASE role WHEN 'admin' THEN true WHEN 'guest' THEN false ELSE (owner_id = current_user_id()) END").data
      = false := by
  exact ⟨by decide, by decide⟩

/-- C10: every element of an `ARRAY[...]` membership list is emitted as a
single-quoted string whatever its original literal kind; in particular
`ARRAY[1, 2]` becomes `'1', '2'` and the compiled role check performs the
string comparison `['1', '2'].includes(user?.role)`. -/
theorem c10_array_elements_quoted :
    (∀ (s e : List Char), e ∈ AutoRLS.extractArrayValuesList s →
      ∃ t, e = '\'' :: t ++ ['\'']) ∧
    AutoRLS.extractArrayValues "1, 2".data = "'1', '2'".data ∧
    Adv.advConvertRoleCheck "get_current_user_role() = ANY (ARRAY[1, 2])" =
      "['1', '2'].includes(user?.role)" := by
  refine ⟨?_, by decide, by decide⟩
  intro s e he
  unfold AutoRLS.extractArrayValuesList at he
  rw [List.mem_map] at he
  obtain ⟨r, _, hr⟩ := he
  exact ⟨AutoRLS.stripEdgeQuotes (AutoRLS.stripCasts r), hr.symm⟩

/-- Witness for C10: the first emitted element for `ARRAY[1, 2]` is the
quoted string `'1'`. -/
theorem c10_array_elements_quoted_witness :
    ("'1'".data ∈ AutoRLS.extractArrayValuesList "1, 2".data) ∧
    ∃ t, "'1'".data = '\'' :: t ++ ['\''] := by
  refine ⟨by decide, ?_⟩
  exact c10_array_elements_quoted.1 "1, 2".data "'1'".data (by decide)

/-- C1 counterexample: on the spec's literal predicate
`role() = ANY(ARRAY['admin','mod']) OR owner_id = current_user_id()` for
entity `Post`, the Filter Compiler does not produce a conditional filter:
`role` is not a recognized role provider, so the output is the bare data
filter (mentioning no role at all) and the Predicate Compiler output has
no role membership either. -/
theorem c1_role_or_split_counterexample :
    PFB.enhancedConvertToPrismaFilter PFB.postBuilder "Post"
      "role() = ANY(ARRAY['admin','mod']) OR owner_id = current_user_id()" =
      "\x7b owner_id: user?.id \x7d" ∧
    PFB.enhancedConvertToJavaScript PFB.postBuilder "Post"
      "role() = ANY(ARRAY['admin','mod']) OR owner_id = current_user_id()" =
      "data?.owner_id === user?.id" ∧
    hasSub "role".data "\x7b owner_id: user?.id \x7d".data = false := by
  exact ⟨by decide, by decide, by decide⟩

/-- C2 counterexample: a predicate containing an EXISTS subquery whose
body matches the earlier `field = function()` pattern does not compile to
the permissive labeled `true` at all — it compiles to a field comparison,
and no diagnostic naming `enrollments` is produced. -/
theorem c2_exists_fallthrough_counterexample :
    AutoRLS.autoConvertToJavaScript
      "EXISTS (SELECT 1 FROM enrollments WHERE student_id = current_user_id())" =
      "data?.student_id === user?.user_id" ∧
    headIs false "true".data (AutoRLS.autoConvertToJavaScript
      "EXISTS (SELECT 1 FROM enrollments WHERE student_id = current_user_id())").data
      = false := by
  exact ⟨by decide, by decide⟩

/-- C5 counterexample: the malformed predicate `(a = 1` (unbalanced
parenthesis) does not fail with a SyntaxError carrying position and
expected token — the parser returns a RAW value node holding the original
text, and the auto converter downgrades it to the labeled permissive
fallback. -/
theorem c5_malformed_input_counterexample :
    SqlToJs.parseSqlExpression "(a = 1" = some (.rawNode "(a = 1") ∧
    AutoRLS.autoConvertToJavaScript "(a = 1" = "true /* Unhandled: (a = 1... */" := by
  exact ⟨rfl, by decide⟩

/-- C6 counterexample: field `ghost` exists neither on `Post` nor on any
related entity, yet `buildUserFieldFilter` silently returns a direct-field
comparison instead of a hard error; and the relationships generator skips
a relation whose target model (`Ghost`) is missing, producing an empty
entry instead of an error. -/
theorem c6_notfound_silent_fallback_counterexample :
    PFB.buildUserFieldFilter PFB.postBuilder "Post" "ghost" "id" "user" =
      some "\x7b ghost: user?.id \x7d" ∧
    RelGen.generateRelationshipsCore Fixtures.ghostModels = [("Article", [])] := by
  exact ⟨by decide, by decide⟩

/-- C7 counterexample: the claimed session-key inference
`<namespace>.current_<X> ⇒ <X>` fails for every namespace other than
`app`: `session.current_tenant` resolves to the sanitized literal
`session_current_tenant`, not to `tenant`.  And the autoRLSConverter
fallback does not treat an unresolved name as a field path on the
principal: `whoami` resolves to the method call `user?.whoami()`, not to
the field path `user?.whoami`. -/
theorem c7_session_namespace_counterexample :
    (Dyn.mapSettingToUserProperty "session.current_tenant" = "session_current_tenant" ∧
      Dyn.mapSettingToUserProperty "session.current_tenant" ≠ "tenant") ∧
    (AutoRLS.getFunctionMapping [] "whoami".data "user".data =
        "user".data ++ "?.".data ++ "whoami".data ++ "()".data ∧
      AutoRLS.getFunctionMapping [] "whoami".data "user".data ≠
        "user".data ++ "?.".data ++ "whoami".data) := by
  exact ⟨⟨by decide, by decide⟩, ⟨by decide, by decide⟩⟩

/-- C9 counterexample: the relation `staff` of `Course` is to-many by the
model metadata (`inferRelationType` answers `many`), yet
`buildRelationFilter` compiles it to a direct nested-equality filter with
no `some`, because the choice is made from the name-plurality/junction
heuristic, not from cardinality metadata. -/
theorem c9_cardinality_ignored_counterexample :
    PFB.inferRelationType Fixtures.courseModelInfo "staff" = "many" ∧
    PFB.buildRelationFilter Fixtures.courseBuilder "staff" { object := "Teacher" }
      "teacher_id" "user.teacher?.id" =
      "\x7b staff: \x7b teacher_id: user.teacher?.id \x7d \x7d" ∧
    hasSub "some".data "\x7b staff: \x7b teacher_id: user.teacher?.id \x7d \x7d".data
      = false := by
  exact ⟨by decide, by decide, by decide⟩

/-- C9 amended: with the related model present, `buildRelationFilter`
emits the `some`-style filter when the relation carries a junction field
list with more than one member, or (without a field list) when the
relation name ends in `s`; otherwise it emits the direct nested-equality
filter.  The cardinality metadata plays no part. -/
theorem c9_relation_filter_shape (b : PFB.Builder) (rn : String)
    (ri : RelGen.RelationInfo) (f v : String)
    (hrel : (RelGen.lookupStr ri.object b.models).isSome = true) :
    (∀ fs, ri.fields = some fs → 1 < fs.length →
      PFB.buildRelationFilter b rn ri f v =
        "\x7b " ++ rn ++ ": \x7b some: \x7b " ++ f ++ ": " ++ v ++ " \x7d \x7d \x7d") ∧
    (ri.fields = none → strEnds "s" rn = true →
      PFB.buildRelationFilter b rn ri f v =
        "\x7b " ++ rn ++ ": \x7b some: \x7b " ++ f ++ ": " ++ v ++ " \x7d \x7d \x7d") ∧
    (ri.fields = none → strEnds "s" rn = false →
      PFB.buildRelationFilter b rn ri f v =
        "\x7b " ++ rn ++ ": \x7b " ++ f ++ ": " ++ v ++ " \x7d \x7d") := by
  obtain ⟨m, hm⟩ := Option.isSome_iff_exists.mp hrel
  refine ⟨?_, ?_, ?_⟩
  · intro fs hfs hlen
    unfold PFB.buildRelationFilter
    rw [hm]
    simp only [hfs]
    rw [if_pos]
    simpa using hlen
  · intro hfs hs
    unfold PFB.buildRelationFilter
    rw [hm]
    simp only [hfs]
    simp [hs]
  · intro hfs hs
    unfold PFB.buildRelationFilter
    rw [hm]
    simp only [hfs]
    simp [hs]

/-- Witness for C9 amended: the plural-named relation `posts` without a
junction field list compiles to the `some`-style filter. -/
theorem c9_relation_filter_shape_witness :
    PFB.buildRelationFilter PFB.postBuilder "posts" { object := "Post" }
      "owner_id" "user?.id" =
      "\x7b posts: \x7b some: \x7b owner_id: user?.id \x7d \x7d \x7d" := by
  have h := (c9_relation_filter_shape PFB.postBuilder "posts" { object := "Post" }
    "owner_id" "user?.id" (by decide)).2.1 rfl (by decide)
  exact h.trans (by decide)

end Rapidd

namespace Rapidd

/-- C6 amended: when the field resolves nowhere — it is not a direct
non-relation field of the model, no junction relation carries it, and no
related model declares it — `buildUserFieldFilter` silently returns the
direct-field fallback comparison instead of a hard error. -/
theorem c6_unresolved_field_direct_fallback (b : PFB.Builder)
    (modelName fieldName userField : String) (mi : RelGen.ModelInfo)
    (hm : RelGen.lookupStr modelName b.models = some mi)
    (hdirect : (match RelGen.lookupStr fieldName mi.fields with
      | some f => !f.isRelation
      | none => false) = false)
    (hjun : PFB.junctionFind b ((RelGen.lookupStr modelName b.relationships).getD [])
      fieldName = none)
    (hreg : PFB.regularFind b ((RelGen.lookupStr modelName b.relationships).getD [])
      fieldName = none) :
    PFB.buildUserFieldFilter b modelName fieldName userField "user" =
      some ("\x7b " ++ fieldName ++ ": " ++
        PFB.convertToUserFieldPath b userField "user" ++ " \x7d") := by
  unfold PFB.buildUserFieldFilter
  rw [hm]
  simp only [hdirect, hjun, hreg, Bool.false_eq_true, if_false]

/-- Witness for C6 amended: the unresolved field `missing_col` on `Post`
falls back to a direct comparison. -/
theorem c6_unresolved_field_direct_fallback_witness :
    PFB.buildUserFieldFilter PFB.postBuilder "Post" "missing_col" "id" "user" =
      some "\x7b missing_col: user?.id \x7d" := by
  have h := c6_unresolved_field_direct_fallback PFB.postBuilder "Post" "missing_col" "id"
    { fields := [("id", {}), ("owner_id", {})] } (by decide) (by decide) (by decide)
    (by decide)
  exact h.trans (by decide)

/-- C2 amended: an EXISTS-containing predicate compiles to the labeled
permissive fallback `true /* TODO: Check <entity> relationship */` (the
entity taken from its FROM clause, the label embedded in the returned
expression) exactly when none of the earlier comparison patterns of
`convertToJavaScript` matches first. -/
theorem c2_exists_labeled_fallback (fuel : Nat) (sql : String) (s t : List Char)
    (hne : (trimWs sql.data).isEmpty = false)
    (hnorm : replaceChar '\n' ' ' (collapseWs (trimWs sql.data)) = s)
    (hcase : headIs false "CASE".data (upStr s) = false)
    (hor : AutoRLS.splitLogicalOperator s "OR".data = [s])
    (hand : AutoRLS.splitLogicalOperator s "AND".data = [s])
    (hfa : AutoRLS.funcAnyMatch s = none)
    (hfv : AutoRLS.funcValueMatch s = none)
    (hff : AutoRLS.fieldFuncMatch s = none)
    (hsm : AutoRLS.settingMatchA s = none)
    (hex : hasSub "EXISTS".data s = true)
    (htm : AutoRLS.tableMatch s = some t) :
    AutoRLS.convertJSA [] [] (fuel + 1) "data".data "user".data sql.data =
      "true /* TODO: Check ".data ++ t ++ " relationship */".data := by
  unfold AutoRLS.convertJSA
  simp only [hne, Bool.false_eq_true, if_false, hnorm, hcase, hor, hand, hfa, hfv,
    hff, hsm, hex, htm, if_true, List.length_singleton]
  norm_num

/-- Witness for C2 amended: `EXISTS (SELECT 1 FROM enrollments)` matches
no earlier pattern and compiles to the labeled permissive fallback naming
`enrollments`. -/
theorem c2_exists_labeled_fallback_witness :
    AutoRLS.autoConvertToJavaScript "EXISTS (SELECT 1 FROM enrollments)" =
      "true /* TODO: Check enrollments relationship */" := by
  have h := c2_exists_labeled_fallback 75 "EXISTS (SELECT 1 FROM enrollments)"
    ("EXISTS (SELECT 1 FROM enrollments)".data) ("enrollments".data)
    (by decide) (by decide) (by decide) (by decide) (by decide) (by decide)
    (by decide) (by decide) (by decide) (by decide) (by decide)
  unfold AutoRLS.autoConvertToJavaScript
  exact (congrArg String.mk h).trans (by decide)

theorem strJoin_pair (s a b : String) : strJoin s [a, b] = a ++ s ++ b := by
  obtain ⟨da⟩ := a
  obtain ⟨db⟩ := b
  obtain ⟨ds⟩ := s
  rfl

/-- C1 amended: when the analyzer recognizes the role branch (one
`role_any` condition) and the SQL joins it to a data condition with OR,
(i) the Filter Compiler (`buildFilter`, with one collected data filter)
emits the conditional filter — the role check first, the unconditional
pass `\x7b\x7d` on a role match, and the data filter otherwise — and
(ii) the Predicate Compiler (`buildJavaScriptCondition`, with one
collected data condition) emits the disjunction of the data condition
and the role-membership check. -/
theorem c1_conditional_filter :
    (∀ (b : PFB.Builder) (modelName : String) (analysis : Deep.Analysis)
      (c : Deep.SqlCond) (roles : List String) (f : String),
      analysis.conditions = [c] →
      c.type = "role_any" →
      c.roles = roles →
      hasSub " OR ".data analysis.sql.data = true →
      PFB.collectFilterStrs b modelName "user" analysis.filters = [f] →
      PFB.buildFilter b modelName analysis "user" =
        "if (" ++ ("[" ++ strJoin ", " (roles.map (fun r => "'" ++ r ++ "'")) ++
          "].includes(" ++ "user" ++ "?.role)") ++
          ") \x7b return \x7b\x7d; \x7d return " ++ f ++ ";") ∧
    (∀ (b : PFB.Builder) (modelName : String) (analysis : Deep.Analysis)
      (c : Deep.SqlCond) (js j2 d : String),
      analysis.conditions = [c] →
      c.javascript = some js →
      (⟨replaceSub "user".data "user".data (js.data.length + 1) js.data⟩ : String)
        = j2 →
      PFB.collectJsConditions b modelName "data" "user" analysis.filters = [d] →
      ¬ d = j2 →
      hasSub " OR ".data analysis.sql.data = true →
      PFB.buildJavaScriptCondition b modelName analysis "data" "user" =
        d ++ " || " ++ j2) := by
  constructor
  · intro b modelName analysis c roles f hc hct hcr hor hf
    have hfe : analysis.filters.isEmpty = false := by
      cases hfil : analysis.filters with
      | nil => rw [hfil] at hf; simp [PFB.collectFilterStrs] at hf
      | cons a l => rfl
    have hrc : PFB.roleCheckStrs analysis.conditions "user" =
        ["[" ++ strJoin ", " (roles.map (fun r => "'" ++ r ++ "'")) ++
          "].includes(" ++ "user" ++ "?.role)"] := by
      rw [hc]
      unfold PFB.roleCheckStrs
      simp [hct, hcr]
    have hany : analysis.conditions.any
        (fun c => c.type = "role_any" || c.type = "role_equal") = true := by
      rw [hc]
      simp [hct]
    unfold PFB.buildFilter
    simp only [hfe, Bool.false_eq_true, if_false, hf, hany, hor, hrc]
    norm_num
  · intro b modelName analysis c js j2 d hc hcjs hj2 hcol hdne hor
    have hdd : PFB.jsSetDedup [d, j2] = [d, j2] := by
      simp [PFB.jsSetDedup, PFB.jsSetDedupGo, hdne, Ne.symm hdne]
    unfold PFB.buildJavaScriptCondition
    rw [hcol, hc]
    simp only [List.filterMap_cons, List.filterMap_nil, hcjs, hj2]
    simp only [List.singleton_append]
    rw [if_neg (by simp)]
    rw [hdd]
    rw [if_neg (by simp)]
    rw [hor, if_pos rfl]
    exact strJoin_pair " || " d j2

/-- Witness for C1 amended: the corrected predicate
`current_user_role() = ANY (ARRAY['admin', 'mod']) OR owner_id =
current_user_id()` on `Post` compiles end-to-end to the conditional
filter, and its predicate compiles to the disjunction of the field
equality and the role membership. -/
theorem c1_conditional_filter_witness :
    PFB.enhancedConvertToPrismaFilter PFB.postBuilder "Post"
      "current_user_role() = ANY (ARRAY['admin', 'mod']) OR owner_id = current_user_id()" =
      "if (['admin', 'mod'].includes(user?.role)) \x7b return \x7b\x7d; \x7d return \x7b owner_id: user?.id \x7d;" ∧
    PFB.enhancedConvertToJavaScript PFB.postBuilder "Post"
      "current_user_role() = ANY (ARRAY['admin', 'mod']) OR owner_id = current_user_id()" =
      "data?.owner_id === user?.id || ['admin', 'mod'].includes(user?.role)" := by
  constructor
  · unfold PFB.enhancedConvertToPrismaFilter
    have hne : (trimWs ("current_user_role() = ANY (ARRAY['admin', 'mod']) OR owner_id = current_user_id()" : String).data).isEmpty = false := by decide
    simp only [hne, Bool.false_eq_true, if_false]
    exact (c1_conditional_filter.1 PFB.postBuilder "Post" _
      { type := "role_any", roles := ["admin", "mod"],
        javascript := some "['admin', 'mod'].includes(user?.role)" }
      ["admin", "mod"] "\x7b owner_id: user?.id \x7d"
      (by decide) rfl rfl (by decide) (by decide)).trans (by decide)
  · unfold PFB.enhancedConvertToJavaScript
    have hne : (trimWs ("current_user_role() = ANY (ARRAY['admin', 'mod']) OR owner_id = current_user_id()" : String).data).isEmpty = false := by decide
    simp only [hne, Bool.false_eq_true, if_false]
    exact (c1_conditional_filter.2 PFB.postBuilder "Post" _
      { type := "role_any", roles := ["admin", "mod"],
        javascript := some "['admin', 'mod'].includes(user?.role)" }
      "['admin', 'mod'].includes(user?.role)"
      "['admin', 'mod'].includes(user?.role)"
      "data?.owner_id === user?.id"
      (by decide) rfl (by decide) (by decide) (by decide) (by decide)).trans
      (by decide)

end Rapidd

namespace Rapidd

theorem trimLeftWs_replicate_paren (k : Nat) :
    trimLeftWs (List.replicate k '(') = List.replicate k '(' := by
  cases k with
  | zero => rfl
  | succ k =>
    rw [List.replicate_succ]
    unfold trimLeftWs
    rw [if_neg (by decide)]

theorem trimWs_replicate_paren (k : Nat) :
    trimWs (List.replicate k '(') = List.replicate k '(' := by
  unfold trimWs
  rw [List.reverse_replicate, trimLeftWs_replicate_paren, List.reverse_replicate,
    trimLeftWs_replicate_paren]

theorem runOf_replicate_paren_zero (p : Char → Bool) (h : p '(' = false) (k : Nat) :
    runOf p (List.replicate k '(') = 0 := by
  cases k with
  | zero => rfl
  | succ k =>
    rw [List.replicate_succ]
    unfold runOf
    rw [h]
    rfl

theorem stripTypeCast_replicate_paren (k : Nat) :
    SqlToJs.stripTypeCast (List.replicate k '(') = List.replicate k '(' := by
  unfold SqlToJs.stripTypeCast
  rw [List.reverse_replicate, runOf_replicate_paren_zero isWordChar (by decide)]
  rfl

theorem replicate_paren_ne_cons (m : Nat) (c0 : Char) (t : List Char) (h : c0 ≠ '(') :
    ¬ List.replicate (m + 1) '(' = c0 :: t := by
  rw [List.replicate_succ]
  intro he
  injection he with h1 _
  exact h h1.symm

theorem upStr_replicate_paren (k : Nat) :
    upStr (List.replicate k '(') = List.replicate k '(' := by
  unfold upStr
  rw [List.map_replicate]
  rw [show upCh '(' = '(' from by decide]

end Rapidd

namespace Rapidd

/-- C5 (amended): malformed predicate text never raises — the parser is
total (`parseSqlExpression` answers `some` on every non-empty input), and
unmatched text such as any run of unbalanced opening parentheses falls
through every branch of `parseValue` to the unconditional RAW fallback
node holding the original text (sqlToJsConverter.js lines 294-298).  No
`SyntaxError` with a position and expected token exists anywhere. -/
theorem c5_parser_total_raw_fallback :
    (∀ s : String, s ≠ "" → (SqlToJs.parseSqlExpression s).isSome = true) ∧
    (∀ fuel n : Nat, 0 < n →
      SqlToJs.parseValueF (fuel + 1) (List.replicate n '(') =
        .rawNode ⟨List.replicate n '('⟩) := by
  constructor
  · intro s hs
    unfold SqlToJs.parseSqlExpression
    rw [if_neg hs]
    rfl
  · intro fuel n hn
    obtain ⟨m, rfl⟩ : ∃ m, n = m + 1 := ⟨n - 1, by omega⟩
    have hh : (List.replicate (m + 1) '(').head? = some '(' := by
      rw [List.replicate_succ]
      rfl
    have hl : (List.replicate (m + 1) '(').getLast? = some '(' := by
      rw [List.getLast?_replicate]
      simp
    have hwr : wordRun (List.replicate (m + 1) '(') = 0 := by
      rw [List.replicate_succ]
      unfold wordRun
      rw [show isWordChar '(' = false from by decide]
      rfl
    have hall : (List.replicate (m + 1) '(').all
        (fun c => isWordChar c || c = '.') = false := by
      rw [List.replicate_succ, List.all_cons]
      rw [show (isWordChar '(' || '(' = '.') = false from by decide]
      rfl
    have hnum : SqlToJs.numCheck (List.replicate (m + 1) '(') = false := by
      unfold SqlToJs.numCheck
      rw [hh]
      rw [if_neg (show ¬ (some '(' = some '-') from by decide)]
      simp only [runOf_replicate_paren_zero isDigitCh (by decide)]
      rfl
    have hfm : SqlToJs.funcMatchAt (List.replicate (m + 1) '(') = none := by
      unfold SqlToJs.funcMatchAt
      rw [hwr]
      rfl
    unfold SqlToJs.parseValueF
    rw [trimWs_replicate_paren, stripTypeCast_replicate_paren]
    simp only [upStr_replicate_paren, hh, hl, hnum, hfm, hall]
    rw [if_neg (replicate_paren_ne_cons m 'N' "ULL".data (by decide))]
    rw [if_neg (replicate_paren_ne_cons m 'T' "RUE".data (by decide))]
    rw [if_neg (replicate_paren_ne_cons m 'F' "ALSE".data (by decide))]
    simp +decide

end Rapidd

namespace Rapidd

/-- Witness for C5: the totality and the RAW fallback at concrete inputs
(the unbalanced text used in the counterexample and a three-parenthesis
run). -/
theorem c5_parser_total_raw_fallback_witness :
    (SqlToJs.parseSqlExpression "(a = 1").isSome = true ∧
    SqlToJs.parseValueF 10 (List.replicate 3 '(') =
      .rawNode ⟨List.replicate 3 '('⟩ :=
  ⟨c5_parser_total_raw_fallback.1 "(a = 1" (by decide),
   c5_parser_total_raw_fallback.2 9 3 (by decide)⟩

end Rapidd

namespace Rapidd

theorem eqCI_refl (c : Char) : eqCI c c = true := by
  unfold eqCI
  simp

theorem headIs_ci_self_append (p t : List Char) : headIs true p (p ++ t) = true := by
  induction p with
  | nil => rfl
  | cons c cs ih =>
    rw [List.cons_append]
    unfold headIs
    rw [if_pos rfl, eqCI_refl, ih]
    rfl

theorem scanStarts_head_some {α : Type} (f : List Char → Option α) (s : List Char)
    (r : α) (h : f s = some r) : scanStarts f s = some r := by
  cases s with
  | nil =>
    unfold scanStarts
    rw [h]
  | cons c cs =>
    unfold scanStarts
    rw [h]

theorem wordRun_all (l : List Char) (h : ∀ c ∈ l, isWordChar c = true) :
    wordRun l = l.length := by
  induction l with
  | nil => rfl
  | cons c cs ih =>
    unfold wordRun
    rw [h c (by simp), ih (fun d hd => h d (by simp [hd]))]
    rfl

theorem drop_length_add (x y : List Char) (k : Nat) :
    List.drop (x.length + k) (x ++ y) = y.drop k := by
  induction x with
  | nil => simp
  | cons c cs ih =>
    rw [List.cons_append, List.length_cons]
    rw [show cs.length + 1 + k = (cs.length + k) + 1 from by omega]
    rw [List.drop_succ_cons]
    exact ih

theorem descend_step (rest : List Char) (k : Nat)
    (h : headIs true "_id".data (rest.drop (k + 1)) = false) :
    Dyn.getIdHere.descend rest (k + 1) = Dyn.getIdHere.descend rest k := by
  conv_lhs => unfold Dyn.getIdHere.descend
  rw [h]
  rfl

theorem descend_hit (rest : List Char) (k : Nat)
    (h : headIs true "_id".data (rest.drop (k + 1)) = true) :
    Dyn.getIdHere.descend rest (k + 1) = some (rest.take (k + 1)) := by
  conv_lhs => unfold Dyn.getIdHere.descend
  rw [h]
  rfl

end Rapidd

namespace Rapidd

/-- C7 (amended): the resolver is total and resolves in priority order —
discovered table first (autoRLSConverter `getFunctionMapping`), built-in
table first in part_007 (`mapFunctionToUserProperty`), then pattern
inference (`get_current_<X>_id` yields `<X>_id` and `current_<X>` yields
`<X>`), with the session-key pattern restricted to the `app` namespace
(`app.current_<X>` yields `<X>`); an unmatched function name falls back
to the literal name in part_007 but to the method call `<userVar>?.<name>()`
in the autoRLSConverter, and a setting outside the `app` namespace falls
back to the sanitized literal (non-alphanumerics replaced by
underscores), not to `<X>`. -/
theorem c7_context_mapping_resolution :
    (∀ (fm : AutoRLS.FuncMappings) (name userVar js : List Char),
      RelGen.lookupStr (⟨name⟩ : String) fm = some (some ⟨js⟩) →
      AutoRLS.getFunctionMapping fm name userVar =
        replaceSub "user".data userVar (js.length + 1) js) ∧
    (∀ name m : String, RelGen.lookupStr name Dyn.builtinMappings = some m →
      Dyn.mapFunctionToUserProperty name = m) ∧
    (∀ x : List Char, x ≠ [] → (∀ c ∈ x, isWordChar c = true) →
      RelGen.lookupStr (⟨"get_current_".data ++ (x ++ "_id".data)⟩ : String)
          Dyn.builtinMappings = none →
      Dyn.mapFunctionToUserProperty ⟨"get_current_".data ++ (x ++ "_id".data)⟩ =
        ⟨x ++ "_id".data⟩) ∧
    (∀ x : List Char, x ≠ [] → (∀ c ∈ x, isWordChar c = true) →
      (⟨"app.current_".data ++ x⟩ : String) ≠ "app.current_user_id" →
      Dyn.mapSettingToUserProperty ⟨"app.current_".data ++ x⟩ = ⟨x⟩) ∧
    (∀ name : String, RelGen.lookupStr name Dyn.builtinMappings = none →
      Dyn.getIdCapture name.data = none →
      AutoRLS.getCurrentCapture name.data = none →
      AutoRLS.currentCapture name.data = none →
      Dyn.mapFunctionToUserProperty name = name) ∧
    (∀ setting : String, setting ≠ "app.current_user_id" →
      Dyn.appCurrentCapture setting.data = none →
      Dyn.mapSettingToUserProperty setting =
        ⟨setting.data.map (fun c => if isAlphanumeric c then c else '_')⟩) ∧
    (∀ x : List Char, x ≠ [] → (∀ c ∈ x, isWordChar c = true) →
      RelGen.lookupStr (⟨"current_".data ++ x⟩ : String) Dyn.builtinMappings = none →
      Dyn.getIdCapture ((⟨"current_".data ++ x⟩ : String)).data = none →
      AutoRLS.getCurrentCapture ((⟨"current_".data ++ x⟩ : String)).data = none →
      Dyn.mapFunctionToUserProperty ⟨"current_".data ++ x⟩ = ⟨x⟩) ∧
    (∀ (fm : AutoRLS.FuncMappings) (name userVar : List Char),
      RelGen.lookupStr (⟨name⟩ : String) fm = none →
      ¬ lowStr name = "get_current_user_role".data →
      ¬ lowStr name = "current_user_role".data →
      AutoRLS.getCurrentCapture name = none →
      AutoRLS.currentCapture name = none →
      AutoRLS.getFunctionMapping fm name userVar =
        userVar ++ "?.".data ++ name ++ "()".data) := by
  refine ⟨?_, ?_, ?_, ?_, ?_, ?_, ?_, ?_⟩
  · intro fm name userVar js h
    unfold AutoRLS.getFunctionMapping
    rw [h]
  · intro name m h
    unfold Dyn.mapFunctionToUserProperty
    rw [h]
  · intro x hne hw hlk
    have hy : ∀ c ∈ "_id".data, isWordChar c = true := by decide
    have hwr : wordRun (x ++ "_id".data) = x.length + 3 := by
      rw [wordRun_all _ (fun c hc => (List.mem_append.mp hc).elim (hw c) (hy c))]
      rw [List.length_append]
      rfl
    have e3 : List.drop (x.length + 3) (x ++ "_id".data) = [] := by
      rw [drop_length_add]
      rfl
    have e2 : List.drop (x.length + 2) (x ++ "_id".data) = ['d'] := by
      rw [drop_length_add]
      rfl
    have e1 : List.drop (x.length + 1) (x ++ "_id".data) = ['i', 'd'] := by
      rw [drop_length_add]
      rfl
    have e0 : List.drop x.length (x ++ "_id".data) = "_id".data :=
      List.drop_left x "_id".data
    have d3 : Dyn.getIdHere.descend (x ++ "_id".data) (x.length + 3) =
        Dyn.getIdHere.descend (x ++ "_id".data) (x.length + 2) := by
      have h := descend_step (x ++ "_id".data) (x.length + 2)
        (by rw [show x.length + 2 + 1 = x.length + 3 from by omega, e3]; decide)
      rwa [show x.length + 2 + 1 = x.length + 3 from by omega] at h
    have d2 : Dyn.getIdHere.descend (x ++ "_id".data) (x.length + 2) =
        Dyn.getIdHere.descend (x ++ "_id".data) (x.length + 1) := by
      have h := descend_step (x ++ "_id".data) (x.length + 1)
        (by rw [show x.length + 1 + 1 = x.length + 2 from by omega, e2]; decide)
      rwa [show x.length + 1 + 1 = x.length + 2 from by omega] at h
    have d1 : Dyn.getIdHere.descend (x ++ "_id".data) (x.length + 1) =
        Dyn.getIdHere.descend (x ++ "_id".data) x.length :=
      descend_step (x ++ "_id".data) x.length (by rw [e1]; decide)
    obtain ⟨j, hj⟩ : ∃ j, x.length = j + 1 := by
      cases x with
      | nil => exact absurd rfl hne
      | cons a as => exact ⟨as.length, by simp⟩
    have d0 : Dyn.getIdHere.descend (x ++ "_id".data) x.length = some x := by
      rw [hj, descend_hit (x ++ "_id".data) j (by rw [← hj, e0]; decide), ← hj,
        List.take_left]
    have hgid : Dyn.getIdHere ("get_current_".data ++ (x ++ "_id".data)) = some x := by
      unfold Dyn.getIdHere
      rw [headIs_ci_self_append, if_pos rfl]
      have hdrop : List.drop 12 ("get_current_".data ++ (x ++ "_id".data)) =
          x ++ "_id".data := List.drop_left "get_current_".data (x ++ "_id".data)
      simp only [hdrop]
      rw [hwr, d3, d2, d1, d0]
    have hcap : Dyn.getIdCapture
        ((⟨"get_current_".data ++ (x ++ "_id".data)⟩ : String)).data = some x :=
      scanStarts_head_some _ _ _ hgid
    unfold Dyn.mapFunctionToUserProperty
    rw [hlk, hcap]
  · intro x hne hw hns
    have hcap : Dyn.appCurrentCapture ("app.current_".data ++ x) = some x := by
      unfold Dyn.appCurrentCapture
      apply scanStarts_head_some
      beta_reduce
      rw [headIs_ci_self_append, if_pos rfl]
      have hdrop : List.drop 12 ("app.current_".data ++ x) = x :=
        List.drop_left "app.current_".data x
      simp only [hdrop]
      rw [wordRun_all x hw,
        if_neg (fun h => hne (List.length_eq_zero.mp h)), List.take_length]
    have hcap' : Dyn.appCurrentCapture
        ((⟨"app.current_".data ++ x⟩ : String)).data = some x := hcap
    unfold Dyn.mapSettingToUserProperty
    rw [if_neg hns, hcap']
  · intro name h1 h2 h3 h4
    unfold Dyn.mapFunctionToUserProperty
    rw [h1, h2, h3, h4]
  · intro setting h1 h2
    unfold Dyn.mapSettingToUserProperty
    rw [if_neg h1, h2]
  · intro x hne hw hlk hgid hgc
    have hcap : AutoRLS.currentCapture ("current_".data ++ x) = some x := by
      unfold AutoRLS.currentCapture
      apply scanStarts_head_some
      beta_reduce
      rw [headIs_ci_self_append, if_pos rfl]
      have hdrop : List.drop 8 ("current_".data ++ x) = x :=
        List.drop_left "current_".data x
      simp only [hdrop]
      rw [wordRun_all x hw,
        if_neg (fun h => hne (List.length_eq_zero.mp h)), List.take_length]
    have hcap' : AutoRLS.currentCapture ((⟨"current_".data ++ x⟩ : String)).data =
        some x := hcap
    unfold Dyn.mapFunctionToUserProperty
    rw [hlk, hgid, hgc, hcap']
  · intro fm name userVar hlk h1 h2 hgc hcc
    unfold AutoRLS.getFunctionMapping
    rw [hlk]
    rw [if_neg (by simp [h1, h2])]
    rw [hgc, hcc]

end Rapidd

namespace Rapidd

/-- Witness for C7: concrete instances of all eight conjuncts — a
discovered mapping wins, a built-in entry wins, `get_current_tenant_id`
infers `tenant_id`, `app.current_tenant` infers `tenant`, `whoami` falls
back to the literal name in part_007, `session.current_tenant` falls
back to the sanitized literal, `current_tenant` infers `tenant`, and the
autoRLSConverter resolves unmatched `whoami` to the method call
`user?.whoami()`. -/
theorem c7_context_mapping_resolution_witness :
    AutoRLS.getFunctionMapping [("tenant_fn", some "u?.tenant")]
        "tenant_fn".data "user".data =
      replaceSub "user".data "user".data ("u?.tenant".data.length + 1)
        "u?.tenant".data ∧
    Dyn.mapFunctionToUserProperty "current_user_id" = "id" ∧
    Dyn.mapFunctionToUserProperty
        ⟨"get_current_".data ++ ("tenant".data ++ "_id".data)⟩ =
      ⟨"tenant".data ++ "_id".data⟩ ∧
    Dyn.mapSettingToUserProperty ⟨"app.current_".data ++ "tenant".data⟩ =
      ⟨"tenant".data⟩ ∧
    Dyn.mapFunctionToUserProperty "whoami" = "whoami" ∧
    Dyn.mapSettingToUserProperty "session.current_tenant" =
      ⟨"session.current_tenant".data.map
        (fun c => if isAlphanumeric c then c else '_')⟩ ∧
    Dyn.mapFunctionToUserProperty ⟨"current_".data ++ "tenant".data⟩ =
      ⟨"tenant".data⟩ ∧
    AutoRLS.getFunctionMapping [] "whoami".data "user".data =
      "user".data ++ "?.".data ++ "whoami".data ++ "()".data :=
  ⟨c7_context_mapping_resolution.1 [("tenant_fn", some "u?.tenant")]
      "tenant_fn".data "user".data "u?.tenant".data (by decide),
   c7_context_mapping_resolution.2.1 "current_user_id" "id" (by decide),
   c7_context_mapping_resolution.2.2.1 "tenant".data (by decide) (by decide)
      (by decide),
   c7_context_mapping_resolution.2.2.2.1 "tenant".data (by decide) (by decide)
      (by decide),
   c7_context_mapping_resolution.2.2.2.2.1 "whoami" (by decide) (by decide)
      (by decide) (by decide),
   c7_context_mapping_resolution.2.2.2.2.2.1 "session.current_tenant" (by decide)
      (by decide),
   c7_context_mapping_resolution.2.2.2.2.2.2.1 "tenant".data (by decide)
      (by decide) (by decide) (by decide) (by decide),
   c7_context_mapping_resolution.2.2.2.2.2.2.2 [] "whoami".data "user".data
      (by decide) (by decide) (by decide) (by decide) (by decide)⟩

end Rapidd

namespace Rapidd

theorem wsRun_cons_ws {c : Char} (h : isWsJS c = true) (cs : List Char) :
    wsRun (c :: cs) = wsRun cs + 1 := by
  conv_lhs => unfold wsRun
  rw [h]
  rfl

theorem wsRun_cons_false {c : Char} (h : isWsJS c = false) (cs : List Char) :
    wsRun (c :: cs) = 0 := by
  unfold wsRun
  rw [h]
  rfl

theorem wsRun_of_all_nonws {s : List Char} (h : ∀ ch ∈ s, isWsJS ch = false) :
    wsRun s = 0 := by
  cases s with
  | nil => rfl
  | cons c cs => exact wsRun_cons_false (h c (by simp)) cs

theorem wsRun_append_zero {s : List Char} (hne : s ≠ [])
    (h : ∀ ch ∈ s, isWsJS ch = false) (r : List Char) :
    wsRun (s ++ r) = 0 := by
  cases s with
  | nil => exact absurd rfl hne
  | cons c cs => exact wsRun_cons_false (h c (by simp)) _

theorem matchOpAt_cons_nonws {op : List Char} {c : Char} (h : isWsJS c = false)
    (cs : List Char) : SqlToJs.matchOpAt op (c :: cs) = none := by
  unfold SqlToJs.matchOpAt
  simp only [wsRun_cons_false h]
  rfl

theorem matchOpAt_none_ws {op s : List Char} (w1 : Nat)
    (h1 : wsRun s = w1) (hw1 : w1 ≠ 0)
    (h2 : headIs true op (s.drop w1) = false) :
    SqlToJs.matchOpAt op s = none := by
  unfold SqlToJs.matchOpAt
  simp only [h1, h2]
  rw [if_neg hw1]
  rfl

theorem matchOpAt_exact {op s : List Char} (w1 w2 : Nat)
    (h1 : wsRun s = w1) (hw1 : w1 ≠ 0)
    (h2 : headIs true op (s.drop w1) = true)
    (h3 : wsRun ((s.drop w1).drop op.length) = w2) (hw2 : w2 ≠ 0) :
    SqlToJs.matchOpAt op s = some (w1 + op.length + w2) := by
  unfold SqlToJs.matchOpAt
  simp only [h1, h2, h3]
  rw [if_neg hw1, if_pos trivial, if_neg hw2]

end Rapidd

namespace Rapidd

theorem headIs_cons_false {p c : Char} (ps : List Char) (cs : List Char)
    (h : eqCI p c = false) : headIs true (p :: ps) (c :: cs) = false := by
  unfold headIs
  rw [if_pos rfl, h, Bool.false_and]

theorem headIs_append_space {op : List Char} (hop : ∀ ch ∈ op, eqCI ch ' ' = false) :
    ∀ {b : List Char}, headIs true op b = false →
    ∀ (r : List Char), headIs true op (b ++ ' ' :: r) = false := by
  induction op with
  | nil => intro b hb r; simp [headIs] at hb
  | cons o os ih =>
    intro b hb r
    cases b with
    | nil =>
      rw [List.nil_append]
      exact headIs_cons_false os r (hop o (by simp))
    | cons x xs =>
      rw [List.cons_append]
      unfold headIs at hb ⊢
      rw [if_pos rfl] at hb ⊢
      cases ho : eqCI o x with
      | false => rw [Bool.false_and]
      | true =>
        rw [ho, Bool.true_and] at hb
        rw [Bool.true_and]
        exact ih (fun ch hch => hop ch (by simp [hch])) hb r

theorem trimLeftWs_cons_nonws {c : Char} (h : isWsJS c = false) (cs : List Char) :
    trimLeftWs (c :: cs) = c :: cs := by
  unfold trimLeftWs
  rw [h]
  rfl

theorem mem_of_getLast?_eq {l : List Char} {x : Char} (h : l.getLast? = some x) :
    x ∈ l := by
  rw [← List.head?_reverse] at h
  have hm : x ∈ l.reverse := by
    cases hr : l.reverse with
    | nil => rw [hr] at h; simp at h
    | cons c cs =>
      rw [hr] at h
      simp only [List.head?_cons, Option.some.injEq] at h
      exact h ▸ List.mem_cons_self c cs
  exact List.mem_reverse.mp hm

theorem trimWs_eq_self_of_ends {s : List Char}
    (hh : ∀ ch, s.head? = some ch → isWsJS ch = false)
    (hl : ∀ ch, s.getLast? = some ch → isWsJS ch = false) :
    trimWs s = s := by
  unfold trimWs
  cases hs : s.reverse with
  | nil =>
    have h0 : s = [] := by
      have := congrArg List.reverse hs
      simpa using this
    rw [h0]
    rfl
  | cons c cs =>
    have hc : s.getLast? = some c := by
      rw [← List.head?_reverse, hs]
      rfl
    rw [trimLeftWs_cons_nonws (hl c hc)]
    have hrr : (c :: cs).reverse = s := by
      rw [← hs, List.reverse_reverse]
    rw [hrr]
    cases s with
    | nil => rfl
    | cons d ds => exact trimLeftWs_cons_nonws (hh d rfl) ds

theorem splitGo_nil (op : List Char) (fuel : Nat) (cur : List Char)
    (d : Int) (parts : List (List Char)) :
    SqlToJs.splitGo op fuel [] cur d parts =
      if (trimWs cur).isEmpty then parts else parts ++ [trimWs cur] := by
  cases fuel with
  | zero => rfl
  | succ k => rfl

theorem splitGo_step_plain {op : List Char} {c : Char} {t : List Char}
    (hm : SqlToJs.matchOpAt op (c :: t) = none)
    (h1 : ¬ c = '(') (h2 : ¬ c = ')')
    (fuel : Nat) (cur : List Char) (parts : List (List Char)) :
    SqlToJs.splitGo op (fuel + 1) (c :: t) cur 0 parts =
      SqlToJs.splitGo op fuel t (cur ++ [c]) 0 parts := by
  conv_lhs => unfold SqlToJs.splitGo
  rw [if_neg h1, if_neg h2, if_pos rfl, hm]

theorem splitGo_match_step {op : List Char} {c : Char} {t : List Char} {n : Nat}
    (hm : SqlToJs.matchOpAt op (c :: t) = some n)
    (h1 : ¬ c = '(') (h2 : ¬ c = ')')
    (fuel : Nat) (cur : List Char) (parts : List (List Char)) :
    SqlToJs.splitGo op (fuel + 1) (c :: t) cur 0 parts =
      SqlToJs.splitGo op fuel ((c :: t).drop n) [] 0 (parts ++ [trimWs cur]) := by
  conv_lhs => unfold SqlToJs.splitGo
  rw [if_neg h1, if_neg h2, if_pos rfl, hm]

theorem splitGo_open_step {op : List Char} (t : List Char)
    (fuel : Nat) (cur : List Char) (d : Int) (parts : List (List Char)) :
    SqlToJs.splitGo op (fuel + 1) ('(' :: t) cur d parts =
      SqlToJs.splitGo op fuel t (cur ++ ['(']) (d + 1) parts := by
  conv_lhs => unfold SqlToJs.splitGo
  rw [if_pos rfl]

theorem splitGo_close_step {op : List Char} (t : List Char)
    (fuel : Nat) (cur : List Char) (d : Int) (parts : List (List Char)) :
    SqlToJs.splitGo op (fuel + 1) (')' :: t) cur d parts =
      SqlToJs.splitGo op fuel t (cur ++ [')']) (d - 1) parts := by
  conv_lhs => unfold SqlToJs.splitGo
  rw [if_neg (by decide), if_pos rfl]

theorem splitGo_step_depth {op : List Char} {c : Char}
    (h1 : ¬ c = '(') (h2 : ¬ c = ')') {d : Int} (hd : ¬ d = 0)
    (t : List Char) (fuel : Nat) (cur : List Char) (parts : List (List Char)) :
    SqlToJs.splitGo op (fuel + 1) (c :: t) cur d parts =
      SqlToJs.splitGo op fuel t (cur ++ [c]) d parts := by
  conv_lhs => unfold SqlToJs.splitGo
  rw [if_neg h1, if_neg h2, if_neg hd]

end Rapidd

namespace Rapidd

theorem splitGo_consume_plain {op : List Char} (xs : List Char) :
    (∀ ch ∈ xs, isWsJS ch = false ∧ ¬ ch = '(' ∧ ¬ ch = ')') →
    ∀ (fuel : Nat) (rest cur : List Char) (parts : List (List Char)),
    SqlToJs.splitGo op (fuel + xs.length) (xs ++ rest) cur 0 parts =
      SqlToJs.splitGo op fuel rest (cur ++ xs) 0 parts := by
  induction xs with
  | nil =>
    intro _ fuel rest cur parts
    simp
  | cons c cs ih =>
    intro hx fuel rest cur parts
    obtain ⟨hw, hp1, hp2⟩ := hx c (by simp)
    rw [show fuel + (c :: cs).length = (fuel + cs.length) + 1 from by
      simp [List.length_cons]
      omega]
    rw [List.cons_append]
    rw [splitGo_step_plain (matchOpAt_cons_nonws hw _) hp1 hp2]
    rw [ih (fun d hd => hx d (by simp [hd])) fuel rest (cur ++ [c]) parts]
    rw [List.append_assoc, List.singleton_append]

theorem splitGo_consume_depth {op : List Char} {d : Int} (hd : ¬ d = 0)
    (xs : List Char) :
    (∀ ch ∈ xs, ¬ ch = '(' ∧ ¬ ch = ')') →
    ∀ (fuel : Nat) (rest cur : List Char) (parts : List (List Char)),
    SqlToJs.splitGo op (fuel + xs.length) (xs ++ rest) cur d parts =
      SqlToJs.splitGo op fuel rest (cur ++ xs) d parts := by
  induction xs with
  | nil =>
    intro _ fuel rest cur parts
    simp
  | cons c cs ih =>
    intro hx fuel rest cur parts
    obtain ⟨hp1, hp2⟩ := hx c (by simp)
    rw [show fuel + (c :: cs).length = (fuel + cs.length) + 1 from by
      simp [List.length_cons]
      omega]
    rw [List.cons_append]
    rw [splitGo_step_depth hp1 hp2 hd (cs ++ rest) (fuel + cs.length) cur parts]
    rw [ih (fun e he => hx e (by simp [he])) fuel rest (cur ++ [c]) parts]
    rw [List.append_assoc, List.singleton_append]

theorem cleanAtom_spec {s : List Char} (h : SqlToJs.cleanAtom s = true) :
    s ≠ [] ∧ (∀ ch ∈ s, isWsJS ch = false ∧ ¬ ch = '(' ∧ ¬ ch = ')') ∧
    headIs true "OR".data s = false ∧ headIs true "AND".data s = false := by
  unfold SqlToJs.cleanAtom at h
  rw [Bool.and_eq_true, Bool.and_eq_true, Bool.and_eq_true] at h
  obtain ⟨⟨⟨h1, h2⟩, h3⟩, h4⟩ := h
  rw [Bool.not_eq_true'] at h1 h3 h4
  refine ⟨List.isEmpty_eq_false.mp h1, ?_, h3, h4⟩
  intro ch hch
  have ha := List.all_eq_true.mp h2 ch hch
  rw [Bool.and_eq_true, Bool.and_eq_true] at ha
  obtain ⟨⟨a1, a2⟩, a3⟩ := ha
  rw [Bool.not_eq_true'] at a1 a2 a3
  exact ⟨a1, of_decide_eq_false a2, of_decide_eq_false a3⟩

end Rapidd

namespace Rapidd

theorem some_or_eq (x : Char) (o : Option Char) : (some x).or o = some x := rfl

theorem mem_of_head?_eq {l : List Char} {x : Char} (h : l.head? = some x) : x ∈ l := by
  cases l with
  | nil => simp at h
  | cons c cs =>
    rw [List.head?_cons, Option.some.injEq] at h
    exact h ▸ List.mem_cons_self c cs

theorem head?_some_of_ne_nil {l : List Char} (h : l ≠ []) : ∃ x, l.head? = some x := by
  cases l with
  | nil => exact absurd rfl h
  | cons c cs => exact ⟨c, rfl⟩

theorem getLast?_some_of_ne_nil {l : List Char} (h : l ≠ []) : ∃ x, l.getLast? = some x := by
  obtain ⟨x, hx⟩ := head?_some_of_ne_nil (fun h0 => h (List.reverse_eq_nil_iff.mp h0))
  exact ⟨x, by rw [← List.head?_reverse]; exact hx⟩

theorem trimWs_all_nonws {s : List Char} (h : ∀ ch ∈ s, isWsJS ch = false) :
    trimWs s = s :=
  trimWs_eq_self_of_ends (fun ch hch => h ch (mem_of_head?_eq hch))
    (fun ch hch => h ch (mem_of_getLast?_eq hch))

theorem trimWs_flank {a b : List Char} (mid : List Char)
    (hane : a ≠ []) (haw : ∀ ch ∈ a, isWsJS ch = false)
    (hbne : b ≠ []) (hbw : ∀ ch ∈ b, isWsJS ch = false) :
    trimWs ((a ++ mid) ++ b) = (a ++ mid) ++ b := by
  apply trimWs_eq_self_of_ends
  · intro ch hch
    obtain ⟨y, hy⟩ := head?_some_of_ne_nil hane
    rw [List.head?_append, List.head?_append, hy, some_or_eq, some_or_eq,
      Option.some.injEq] at hch
    exact hch ▸ haw y (mem_of_head?_eq hy)
  · intro ch hch
    obtain ⟨x, hx⟩ := getLast?_some_of_ne_nil hbne
    rw [List.getLast?_append, hx, some_or_eq, Option.some.injEq] at hch
    exact hch ▸ hbw x (mem_of_getLast?_eq hx)

theorem splitGo_and_pass_or (v : List Char) (hv0 : wsRun v = 0)
    (hvOR : headIs true "OR".data v = false)
    (fuel : Nat) (cur : List Char) (parts : List (List Char)) :
    SqlToJs.splitGo "OR".data (fuel + 5)
        (' ' :: 'A' :: 'N' :: 'D' :: ' ' :: v) cur 0 parts =
      SqlToJs.splitGo "OR".data fuel v (cur ++ [' ', 'A', 'N', 'D', ' ']) 0 parts := by
  have hA : headIs true "OR".data ('A' :: 'N' :: 'D' :: ' ' :: v) = false :=
    headIs_cons_false ['R'] ('N' :: 'D' :: ' ' :: v) (by decide)
  have m1 : SqlToJs.matchOpAt "OR".data (' ' :: 'A' :: 'N' :: 'D' :: ' ' :: v) = none :=
    matchOpAt_none_ws 1
      (by rw [wsRun_cons_ws (by decide), wsRun_cons_false (by decide)])
      (by decide) hA
  have m5 : SqlToJs.matchOpAt "OR".data (' ' :: v) = none :=
    matchOpAt_none_ws 1 (by rw [wsRun_cons_ws (by decide), hv0]) (by decide) hvOR
  rw [show fuel + 5 = (fuel + 4) + 1 from by omega]
  rw [splitGo_step_plain m1 (by decide) (by decide)]
  rw [show fuel + 4 = (fuel + 3) + 1 from by omega]
  rw [splitGo_step_plain (matchOpAt_cons_nonws (by decide) _) (by decide) (by decide)]
  rw [show fuel + 3 = (fuel + 2) + 1 from by omega]
  rw [splitGo_step_plain (matchOpAt_cons_nonws (by decide) _) (by decide) (by decide)]
  rw [show fuel + 2 = (fuel + 1) + 1 from by omega]
  rw [splitGo_step_plain (matchOpAt_cons_nonws (by decide) _) (by decide) (by decide)]
  rw [splitGo_step_plain m5 (by decide) (by decide)]
  simp only [List.append_assoc, List.cons_append, List.nil_append]

theorem splitGo_or_match {v : List Char} (hv0 : wsRun v = 0)
    (fuel : Nat) (cur : List Char) (parts : List (List Char)) :
    SqlToJs.splitGo "OR".data (fuel + 1) (' ' :: 'O' :: 'R' :: ' ' :: v) cur 0 parts =
      SqlToJs.splitGo "OR".data fuel v [] 0 (parts ++ [trimWs cur]) := by
  have m : SqlToJs.matchOpAt "OR".data (' ' :: 'O' :: 'R' :: ' ' :: v) = some 4 :=
    matchOpAt_exact 1 1
      (by rw [wsRun_cons_ws (by decide), wsRun_cons_false (by decide)])
      (by decide) (headIs_ci_self_append "OR".data (' ' :: v))
      (by rw [show ((' ' :: 'O' :: 'R' :: ' ' :: v).drop 1).drop "OR".data.length =
          ' ' :: v from rfl, wsRun_cons_ws (by decide), hv0]) (by decide)
  rw [splitGo_match_step m (by decide) (by decide)]
  rw [show (' ' :: 'O' :: 'R' :: ' ' :: v).drop 4 = v from rfl]

theorem splitGo_and_match {v : List Char} (hv0 : wsRun v = 0)
    (fuel : Nat) (cur : List Char) (parts : List (List Char)) :
    SqlToJs.splitGo "AND".data (fuel + 1) (' ' :: 'A' :: 'N' :: 'D' :: ' ' :: v) cur 0 parts =
      SqlToJs.splitGo "AND".data fuel v [] 0 (parts ++ [trimWs cur]) := by
  have m : SqlToJs.matchOpAt "AND".data (' ' :: 'A' :: 'N' :: 'D' :: ' ' :: v) = some 5 :=
    matchOpAt_exact 1 1
      (by rw [wsRun_cons_ws (by decide), wsRun_cons_false (by decide)])
      (by decide) (headIs_ci_self_append "AND".data (' ' :: v))
      (by rw [show ((' ' :: 'A' :: 'N' :: 'D' :: ' ' :: v).drop 1).drop "AND".data.length =
          ' ' :: v from rfl, wsRun_cons_ws (by decide), hv0]) (by decide)
  rw [splitGo_match_step m (by decide) (by decide)]
  rw [show (' ' :: 'A' :: 'N' :: 'D' :: ' ' :: v).drop 5 = v from rfl]

end Rapidd

namespace Rapidd

theorem splitOr_and_or_family (a b c : List Char)
    (ha : SqlToJs.cleanAtom a = true) (hb : SqlToJs.cleanAtom b = true)
    (hc : SqlToJs.cleanAtom c = true) :
    SqlToJs.splitByOperator
        (a ++ (' ' :: 'A' :: 'N' :: 'D' :: ' ' :: (b ++ (' ' :: 'O' :: 'R' :: ' ' :: c))))
        "OR".data =
      [a ++ (' ' :: 'A' :: 'N' :: 'D' :: ' ' :: b), c] := by
  obtain ⟨hane, haF, haOR, haAND⟩ := cleanAtom_spec ha
  obtain ⟨hbne, hbF, hbOR, hbAND⟩ := cleanAtom_spec hb
  obtain ⟨hcne, hcF, hcOR, hcAND⟩ := cleanAtom_spec hc
  have haw : ∀ ch ∈ a, isWsJS ch = false := fun ch hch => (haF ch hch).1
  have hbw : ∀ ch ∈ b, isWsJS ch = false := fun ch hch => (hbF ch hch).1
  have hcw : ∀ ch ∈ c, isWsJS ch = false := fun ch hch => (hcF ch hch).1
  have hparts : SqlToJs.splitGo "OR".data
      ((a ++ (' ' :: 'A' :: 'N' :: 'D' :: ' ' ::
        (b ++ (' ' :: 'O' :: 'R' :: ' ' :: c)))).length + 1)
      (a ++ (' ' :: 'A' :: 'N' :: 'D' :: ' ' ::
        (b ++ (' ' :: 'O' :: 'R' :: ' ' :: c)))) [] 0 [] =
      [a ++ (' ' :: 'A' :: 'N' :: 'D' :: ' ' :: b), c] := by
    rw [show (a ++ (' ' :: 'A' :: 'N' :: 'D' :: ' ' ::
        (b ++ (' ' :: 'O' :: 'R' :: ' ' :: c)))).length + 1 =
        ((b.length + c.length + 5) + 5) + a.length from by
      simp [List.length_append]
      omega]
    rw [splitGo_consume_plain a haF ((b.length + c.length + 5) + 5) _ [] []]
    rw [List.nil_append]
    rw [splitGo_and_pass_or (b ++ (' ' :: 'O' :: 'R' :: ' ' :: c))
      (wsRun_append_zero hbne hbw _)
      (headIs_append_space (by decide) hbOR ('O' :: 'R' :: ' ' :: c))
      (b.length + c.length + 5) a []]
    rw [show b.length + c.length + 5 = (c.length + 5) + b.length from by omega]
    rw [splitGo_consume_plain b hbF (c.length + 5) _ _ []]
    rw [show c.length + 5 = (c.length + 4) + 1 from by omega]
    rw [splitGo_or_match (wsRun_of_all_nonws hcw) (c.length + 4) _ []]
    rw [List.nil_append]
    rw [trimWs_flank [' ', 'A', 'N', 'D', ' '] hane haw hbne hbw]
    calc SqlToJs.splitGo "OR".data (c.length + 4) c [] 0
          [(a ++ [' ', 'A', 'N', 'D', ' ']) ++ b]
        = SqlToJs.splitGo "OR".data (4 + c.length) (c ++ []) [] 0
            [(a ++ [' ', 'A', 'N', 'D', ' ']) ++ b] := by
          rw [List.append_nil, Nat.add_comm c.length 4]
      _ = SqlToJs.splitGo "OR".data 4 [] ([] ++ c) 0
            [(a ++ [' ', 'A', 'N', 'D', ' ']) ++ b] :=
          splitGo_consume_plain c hcF 4 [] [] _
      _ = [a ++ (' ' :: 'A' :: 'N' :: 'D' :: ' ' :: b), c] := by
          rw [List.nil_append, splitGo_nil, trimWs_all_nonws hcw,
            if_neg (fun h0 => hcne (List.isEmpty_iff.mp h0))]
          simp only [List.append_assoc, List.cons_append, List.nil_append]
  unfold SqlToJs.splitByOperator
  simp only [hparts]
  rfl

theorem splitOr_and_single (a b : List Char)
    (ha : SqlToJs.cleanAtom a = true) (hb : SqlToJs.cleanAtom b = true) :
    SqlToJs.splitByOperator (a ++ (' ' :: 'A' :: 'N' :: 'D' :: ' ' :: b)) "OR".data =
      [a ++ (' ' :: 'A' :: 'N' :: 'D' :: ' ' :: b)] := by
  obtain ⟨hane, haF, haOR, haAND⟩ := cleanAtom_spec ha
  obtain ⟨hbne, hbF, hbOR, hbAND⟩ := cleanAtom_spec hb
  have haw : ∀ ch ∈ a, isWsJS ch = false := fun ch hch => (haF ch hch).1
  have hbw : ∀ ch ∈ b, isWsJS ch = false := fun ch hch => (hbF ch hch).1
  have hparts : SqlToJs.splitGo "OR".data
      ((a ++ (' ' :: 'A' :: 'N' :: 'D' :: ' ' :: b)).length + 1)
      (a ++ (' ' :: 'A' :: 'N' :: 'D' :: ' ' :: b)) [] 0 [] =
      [a ++ (' ' :: 'A' :: 'N' :: 'D' :: ' ' :: b)] := by
    rw [show (a ++ (' ' :: 'A' :: 'N' :: 'D' :: ' ' :: b)).length + 1 =
        ((b.length + 1) + 5) + a.length from by
      simp [List.length_append]
      omega]
    rw [splitGo_consume_plain a haF ((b.length + 1) + 5) _ [] []]
    rw [List.nil_append]
    rw [splitGo_and_pass_or b (wsRun_of_all_nonws hbw) hbOR (b.length + 1) a []]
    calc SqlToJs.splitGo "OR".data (b.length + 1) b (a ++ [' ', 'A', 'N', 'D', ' ']) 0 []
        = SqlToJs.splitGo "OR".data (1 + b.length) (b ++ [])
            (a ++ [' ', 'A', 'N', 'D', ' ']) 0 [] := by
          rw [List.append_nil, Nat.add_comm b.length 1]
      _ = SqlToJs.splitGo "OR".data 1 [] ((a ++ [' ', 'A', 'N', 'D', ' ']) ++ b) 0 [] :=
          splitGo_consume_plain b hbF 1 [] _ []
      _ = [a ++ (' ' :: 'A' :: 'N' :: 'D' :: ' ' :: b)] := by
          rw [splitGo_nil, trimWs_flank [' ', 'A', 'N', 'D', ' '] hane haw hbne hbw,
            if_neg (fun h0 => hane
              (List.append_eq_nil.mp (List.append_eq_nil.mp
                (List.isEmpty_iff.mp h0)).1).1)]
          simp only [List.append_assoc, List.cons_append, List.nil_append]
  unfold SqlToJs.splitByOperator
  simp only [hparts]
  rfl

theorem splitAnd_pair (a b : List Char)
    (ha : SqlToJs.cleanAtom a = true) (hb : SqlToJs.cleanAtom b = true) :
    SqlToJs.splitByOperator (a ++ (' ' :: 'A' :: 'N' :: 'D' :: ' ' :: b)) "AND".data =
      [a, b] := by
  obtain ⟨hane, haF, haOR, haAND⟩ := cleanAtom_spec ha
  obtain ⟨hbne, hbF, hbOR, hbAND⟩ := cleanAtom_spec hb
  have haw : ∀ ch ∈ a, isWsJS ch = false := fun ch hch => (haF ch hch).1
  have hbw : ∀ ch ∈ b, isWsJS ch = false := fun ch hch => (hbF ch hch).1
  have hparts : SqlToJs.splitGo "AND".data
      ((a ++ (' ' :: 'A' :: 'N' :: 'D' :: ' ' :: b)).length + 1)
      (a ++ (' ' :: 'A' :: 'N' :: 'D' :: ' ' :: b)) [] 0 [] = [a, b] := by
    rw [show (a ++ (' ' :: 'A' :: 'N' :: 'D' :: ' ' :: b)).length + 1 =
        ((b.length + 5) + 1) + a.length from by
      simp [List.length_append]
      omega]
    rw [splitGo_consume_plain a haF ((b.length + 5) + 1) _ [] []]
    rw [List.nil_append]
    rw [splitGo_and_match (wsRun_of_all_nonws hbw) (b.length + 5) a []]
    rw [List.nil_append, trimWs_all_nonws haw]
    calc SqlToJs.splitGo "AND".data (b.length + 5) b [] 0 [a]
        = SqlToJs.splitGo "AND".data (5 + b.length) (b ++ []) [] 0 [a] := by
          rw [List.append_nil, Nat.add_comm b.length 5]
      _ = SqlToJs.splitGo "AND".data 5 [] ([] ++ b) 0 [a] :=
          splitGo_consume_plain b hbF 5 [] [] _
      _ = [a, b] := by
          rw [List.nil_append, splitGo_nil, trimWs_all_nonws hbw,
            if_neg (fun h0 => hbne (List.isEmpty_iff.mp h0))]
          rfl
  unfold SqlToJs.splitByOperator
  simp only [hparts]
  rfl

theorem splitOr_paren_whole (d : List Char)
    (hd : ∀ ch ∈ d, ¬ ch = '(' ∧ ¬ ch = ')') :
    SqlToJs.splitByOperator ('(' :: (d ++ [')'])) "OR".data =
      ['(' :: (d ++ [')'])] := by
  have hparts : SqlToJs.splitGo "OR".data (('(' :: (d ++ [')'])).length + 1)
      ('(' :: (d ++ [')'])) [] 0 [] = ['(' :: (d ++ [')'])] := by
    rw [show ('(' :: (d ++ [')'])).length + 1 = (2 + d.length) + 1 from by
      simp [List.length_append]
      omega]
    rw [splitGo_open_step (d ++ [')']) (2 + d.length) [] 0 []]
    rw [List.nil_append]
    rw [splitGo_consume_depth (show ¬ ((0 : Int) + 1) = 0 from by norm_num)
      d hd 2 [')'] ['('] []]
    rw [show (2 : Nat) = 1 + 1 from by omega]
    rw [splitGo_close_step [] 1 (['('] ++ d) (0 + 1) []]
    rw [splitGo_nil, trimWs_flank d (by decide) (by decide) (by decide) (by decide),
      if_neg (fun h0 => absurd
        (List.append_eq_nil.mp (List.isEmpty_iff.mp h0)).2 (by decide))]
    simp only [List.append_assoc, List.cons_append, List.nil_append]
  unfold SqlToJs.splitByOperator
  simp only [hparts]
  rfl

end Rapidd

namespace Rapidd

/-- C3: the parser gives AND higher precedence than OR.  For every input
of the form `a AND b OR c` (with `a`, `b`, `c` clean comparison-level
atoms and a single space around the operator words), the AST is
`Or(And(a, b), c)`: `parseLogicalExpression` splits at top-level OR
before top-level AND.  Moreover `splitByOperator` never splits at an
operator occurrence nested inside parentheses: a fully parenthesised
expression survives the OR pass whole, whatever its body contains. -/
theorem c3_and_binds_tighter_than_or :
    (∀ (f : Nat) (a b c : List Char),
      SqlToJs.cleanAtom a = true → SqlToJs.cleanAtom b = true →
      SqlToJs.cleanAtom c = true →
      SqlToJs.parseLogicalF (f + 2)
          (a ++ (' ' :: 'A' :: 'N' :: 'D' :: ' ' ::
            (b ++ (' ' :: 'O' :: 'R' :: ' ' :: c)))) =
        SqlToJs.Ast.orN [SqlToJs.Ast.andN
            [SqlToJs.parseLogicalF f a, SqlToJs.parseLogicalF f b],
          SqlToJs.parseLogicalF (f + 1) c]) ∧
    (∀ d : List Char, (∀ ch ∈ d, ¬ ch = '(' ∧ ¬ ch = ')') →
      SqlToJs.splitByOperator ('(' :: (d ++ [')'])) "OR".data =
        ['(' :: (d ++ [')'])]) := by
  constructor
  · intro f a b c ha hb hc
    have hAB : SqlToJs.parseLogicalF (f + 1)
        (a ++ (' ' :: 'A' :: 'N' :: 'D' :: ' ' :: b)) =
        SqlToJs.Ast.andN [SqlToJs.parseLogicalF f a, SqlToJs.parseLogicalF f b] := by
      conv_lhs => unfold SqlToJs.parseLogicalF
      simp only [splitOr_and_single a b ha hb, splitAnd_pair a b ha hb]
      rw [if_neg (by simp), if_pos (by simp)]
      rw [List.map_cons, List.map_cons, List.map_nil]
    conv_lhs => rw [show f + 2 = (f + 1) + 1 from by omega]
    conv_lhs => unfold SqlToJs.parseLogicalF
    simp only [splitOr_and_or_family a b c ha hb hc]
    rw [if_pos (by simp)]
    rw [List.map_cons, List.map_cons, List.map_nil]
    rw [hAB]
  · exact splitOr_paren_whole

/-- Witness for C3 at the spec's own example shape: `x=1 AND y=2 OR z=3`
parses as `Or(And(x=1, y=2), z=3)`, and a parenthesised `(p OR q)`
survives the OR pass of `splitByOperator` unsplit. -/
theorem c3_and_binds_tighter_than_or_witness :
    SqlToJs.parseLogicalF 3
        ("x=1".data ++ (' ' :: 'A' :: 'N' :: 'D' :: ' ' ::
          ("y=2".data ++ (' ' :: 'O' :: 'R' :: ' ' :: "z=3".data)))) =
      SqlToJs.Ast.orN [SqlToJs.Ast.andN
          [SqlToJs.parseLogicalF 1 "x=1".data, SqlToJs.parseLogicalF 1 "y=2".data],
        SqlToJs.parseLogicalF 2 "z=3".data] ∧
    SqlToJs.splitByOperator ('(' :: ("p OR q".data ++ [')'])) "OR".data =
      ['(' :: ("p OR q".data ++ [')'])] :=
  ⟨c3_and_binds_tighter_than_or.1 1 "x=1".data "y=2".data "z=3".data
      (by decide) (by decide) (by decide),
   c3_and_binds_tighter_than_or.2 "p OR q".data (by decide)⟩

end Rapidd
